import Mathlib

/-!
# Shallow embedding of the tracent event-model core

Definitions are translated from the repository sources:
* `src/tracent/eventmodel/tracebuilder.py` (snake_case revision):
  `StringTable`, `SimpleTraceBuilder` and its operations;
* `src/tracent/eventmodel/eu.py`: `ExecutionUnit` event numbering,
  `peek`, `getTraceContext`, the `tracePoint`/`finish` call sequences;
* `src/tracent/opentracing/{binary,text,w3c}_propagator.py`.

Python `bytes` values are modelled as `List Nat` (each element < 256),
Python strings as Lean `String` (or `List Char` in the propagator
codecs, which manipulate text character-wise), Python dicts as
insertion-ordered association lists, and raised exceptions as explicit
error results.  Python `float` tag payloads are carried as rational
literals: the code never computes with them, it only stores and compares
them, and comparison of (non-NaN) doubles coincides with comparison of
the rationals they denote.
-/

namespace Tracent

/-- Association-list lookup, first match wins: models Python `dict[key]`
    for dicts built by inserting fresh keys at the end. -/
def alookup {α β : Type} [DecidableEq α] : List (α × β) → α → Option β
  | [], _ => none
  | p :: rest, key => if p.1 = key then some p.2 else alookup rest key

/-- Python `dict[key] = value`: overwrite in place if the key is
    present, otherwise append preserving insertion order. -/
def adset {α β : Type} [DecidableEq α] : List (α × β) → α → β → List (α × β)
  | [], key, value => [(key, value)]
  | p :: rest, key, value =>
      if p.1 = key then (p.1, value) :: rest else p :: adset rest key value

/-- FNV-1a, 32-bit, over a byte sequence (`fnvhash.fnv1a_32`). -/
def fnv1a32 (bytes : List Nat) : Nat :=
  bytes.foldl (fun h b => ((h ^^^ b % 256) * 16777619) % 2 ^ 32) 2166136261

/-- FNV-1a, 64-bit, over a byte sequence (`fnvhash.fnv1a_64`). -/
def fnv1a64 (bytes : List Nat) : Nat :=
  bytes.foldl (fun h b => ((h ^^^ b % 256) * 1099511628211) % 2 ^ 64) 14695981039346656037

/-- UTF-8 encoding of a string as a byte list (`utf_8.encode`). -/
def strBytes (s : String) : List Nat :=
  (s.data.flatMap String.utf8EncodeChar).map (fun b => b.toNat)

/-- Little-endian encoding of a natural number on `n` bytes
    (`struct.pack` with `<Q` for `n = 8`). -/
def leBytes : Nat → Nat → List Nat
  | 0, _ => []
  | n + 1, v => v % 256 :: leBytes n (v / 256)

/-- Tag values admitted by the builder (Python `TagType =
    Union[bool, int, float, str, bytes]`). -/
inductive PyValue : Type
  | bool (b : Bool)
  | int (n : Int)
  | float (q : ℚ)
  | str (s : String)
  | bytes (bs : List Nat)
  deriving DecidableEq, Repr

/-- Python `==` on tag values: `bool` is an `int` subtype, numeric kinds
    compare by numeric value, `str` and `bytes` compare structurally and
    never equal a number. -/
def pyEq : PyValue → PyValue → Bool
  | .bool a, .bool b => a = b
  | .bool a, .int n => (if a then (1 : Int) else 0) = n
  | .int n, .bool a => n = (if a then (1 : Int) else 0)
  | .bool a, .float q => ((if a then (1 : ℚ) else 0) = q)
  | .float q, .bool a => (q = (if a then (1 : ℚ) else 0))
  | .int n, .int m => n = m
  | .int n, .float q => ((n : ℚ) = q)
  | .float q, .int n => (q = (n : ℚ))
  | .float q, .float r => q = r
  | .str s, .str t => s = t
  | .bytes a, .bytes b => a = b
  | _, _ => false

/-- The `StringTable` of `tracebuilder.py`: two insertion-ordered dicts
    and a dirty flag. -/
structure StringTable : Type where
  stringsByAlias : List (Nat × String)
  aliasesByString : List (String × Nat)
  isDirty : Bool
  deriving DecidableEq, Repr

/-- `StringTable.__init__`. -/
def StringTable.init : StringTable :=
  { stringsByAlias := [], aliasesByString := [], isDirty := false }

/-- `StringTable.get_alias`: cached alias if present; otherwise hash the
    UTF-8 encoding with 32-bit FNV-1a; a hash already bound to a
    different string raises `HashCollisionError` (modelled as `none`)
    leaving the table unchanged; otherwise bind both directions and mark
    the table dirty. -/
def StringTable.getAlias (t : StringTable) (s : String) :
    Option Nat × StringTable :=
  match alookup t.aliasesByString s with
  | some a => (some a, t)
  | none =>
      let a := fnv1a32 (strBytes s)
      match alookup t.stringsByAlias a with
      | some _conflicting => (none, t)
      | none =>
          (some a,
           { stringsByAlias := t.stringsByAlias ++ [(a, s)]
             aliasesByString := t.aliasesByString ++ [(s, a)]
             isDirty := true })

/-- `StringTable.save_to`: append every `(alias, string)` pair of
    `strings_by_alias` to the sink and clear the dirty flag.  Returns
    the emitted entries next to the updated table. -/
def StringTable.saveTo (t : StringTable) :
    List (Nat × String) × StringTable :=
  (t.stringsByAlias, { t with isDirty := false })

/-- Interning a sequence of strings one after the other (any series of
    `get_alias` calls during the process lifetime). -/
def StringTable.applySeq (t : StringTable) (l : List String) : StringTable :=
  l.foldl (fun t s => (t.getAlias s).2) t

/-- Consistency of a reachable string table: every cached
    string-to-alias binding stores the FNV-1a hash of the string and is
    mirrored in the alias-to-string dict. -/
def StringTable.WF (t : StringTable) : Prop :=
  ∀ p ∈ t.aliasesByString,
    p.2 = fnv1a32 (strBytes p.1) ∧ alookup t.stringsByAlias p.2 = some p.1

instance (t : StringTable) : Decidable t.WF := by
  unfold StringTable.WF; infer_instance

/-! ## Wire model (`tracent.proto` PDU shapes, spec §6) -/

/-- Key of a wire `Tag`: either the 32-bit alias, or the literal string
    when aliasing failed with a hash collision. -/
inductive TagKey : Type
  | alias (a : Nat)
  | literal (s : String)
  deriving DecidableEq, Repr

/-- The `one_of` value carried by a wire `Tag`.  Booleans land in the
    integer field: `_add_tag` tests `isinstance(value, int)` first and
    Python `bool` is an `int` subtype, so the `boolean_value` branch is
    unreachable. -/
inductive WireValue : Type
  | int (n : Int)
  | float (q : ℚ)
  | str (s : String)
  | bytes (bs : List Nat)
  deriving DecidableEq, Repr

/-- A wire `Tag`: a key and an optional value (`none` models a
    tombstone tag with no value field set). -/
structure WireTag : Type where
  key : TagKey
  value : Option WireValue
  deriving DecidableEq, Repr

/-- `pb.Event.Type` values used by the event model. -/
inductive EventType : Type
  | unspecified
  | createEu
  | finishEu
  | otStartSpan
  | otFinishSpan
  deriving DecidableEq, Repr

/-- `pb.Event.Status` values used by the event model. -/
inductive EventStatus : Type
  | unknown
  | busy
  | idle
  deriving DecidableEq, Repr

/-- A causing-event entry of a wire `Event`: the `trace_id` field is
    optional, the `event_id` field is always set. -/
structure CauseEntry : Type where
  traceId : Option (List Nat)
  eventId : List Nat
  deriving DecidableEq, Repr

/-- A wire `Event` inside a trace fragment (the real-time timestamp
    field is not modelled). -/
structure Event : Type where
  sequenceNumber : Int
  eventType : EventType
  status : EventStatus
  causingEvents : List CauseEntry
  tags : List WireTag
  deriving DecidableEq, Repr

/-- A wire `TraceFragment` (the real-time `time_reference` field is not
    modelled). -/
structure TraceFragment : Type where
  traceId : List Nat
  executionUnitId : List Nat
  events : List Event
  deriving DecidableEq, Repr

/-- A wire `ExecutionUnit` descriptor PDU. -/
structure EuPDU : Type where
  id : List Nat
  euType : Nat
  tags : List WireTag
  deriving DecidableEq, Repr

/-- A `TracingData` PDU as handed to the reporter: `routed` goes
    through `Reporter.send` keyed by the routing key, `broadcast`
    through `Reporter.broadcast`. -/
inductive PDU : Type
  | routed (routingKey : List Nat) (traceFragments : List TraceFragment)
           (executionUnits : List EuPDU)
  | broadcast (strings : List (Nat × String))
  deriving DecidableEq, Repr

/-! ## `SimpleTraceBuilder` (tracebuilder.py) -/

/-- Python exceptions surfaced by the builder. -/
inductive PyErr : Type
  | keyError
  | assertionError
  | attributeError
  deriving DecidableEq, Repr

instance {ε α : Type} [DecidableEq ε] [DecidableEq α] :
    DecidableEq (Except ε α) := fun a b =>
  match a, b with
  | .ok x, .ok y =>
      if h : x = y then .isTrue (by rw [h]) else .isFalse (by simp [h])
  | .error e, .error f =>
      if h : e = f then .isTrue (by rw [h]) else .isFalse (by simp [h])
  | .ok _, .error _ => .isFalse (by simp)
  | .error _, .ok _ => .isFalse (by simp)

/-- `SimpleTraceBuilder.EuState`.  `openFragment` models the
    `trace_fragment_pdu` / `tracing_data_pdu` pair under construction
    (`none` before the first `start_trace`); `hasEvent` records whether
    `event_pdu` has ever been assigned, which in the states exercised
    here always references the last event of the open fragment. -/
structure EuState : Type where
  euPdu : EuPDU
  isTraceOngoing : Bool
  eventTags : List (String × PyValue)
  openFragment : Option TraceFragment
  hasEvent : Bool
  deriving DecidableEq, Repr

/-- The builder's whole state, together with the chronological list of
    PDUs handed to the reporter. -/
structure BuilderState : Type where
  stringTable : StringTable
  euStates : List (List Nat × EuState)
  emitted : List PDU
  deriving DecidableEq, Repr

/-- `SimpleTraceBuilder.__init__`. -/
def BuilderState.init : BuilderState :=
  { stringTable := StringTable.init, euStates := [], emitted := [] }

/-- The value assembly of `SimpleTraceBuilder._add_tag` (with
    `encode_string_values` left at its default `False`, as at every
    call site): integers (and booleans, caught by the `isinstance(value,
    int)` test) go to `int_value`, floats to `float_value`, bytes to
    `bytes_value` — and for a `str` value the code stores the *key*
    (`tag_pdu.string_value = key`). -/
def encodeTagValue (key : String) : PyValue → WireValue
  | .bool b => .int (if b then 1 else 0)
  | .int n => .int n
  | .float q => .float q
  | .str _ => .str key
  | .bytes bs => .bytes bs

/-- `SimpleTraceBuilder._add_tag`: intern the key (falling back to the
    literal string on a hash collision) and attach the encoded value
    unless it is `None`.  Returns the appended tag and the updated
    string table. -/
def addTag (table : StringTable) (key : String) (value : Option PyValue) :
    WireTag × StringTable :=
  match table.getAlias key with
  | (some a, table') =>
      ({ key := .alias a, value := value.map (encodeTagValue key) }, table')
  | (none, table') =>
      ({ key := .literal key, value := value.map (encodeTagValue key) }, table')

/-- `SimpleTraceBuilder.start_eu`: `assert` the id is fresh, then build
    the unit's descriptor PDU, adding one tag per entry of `tags` in
    insertion order. -/
def BuilderState.startEu (st : BuilderState) (euId : List Nat) (euType : Nat)
    (tags : List (String × PyValue)) : Except PyErr Unit × BuilderState :=
  match alookup st.euStates euId with
  | some _ => (.error .assertionError, st)
  | none =>
      let (wireTags, table') := tags.foldl
        (fun (acc : List WireTag × StringTable) kv =>
          let (tag, t') := addTag acc.2 kv.1 kv.2
          (acc.1 ++ [tag], t'))
        ([], st.stringTable)
      let euState : EuState :=
        { euPdu := { id := euId, euType := euType, tags := wireTags }
          isTraceOngoing := false
          eventTags := []
          openFragment := none
          hasEvent := false }
      (.ok (), { st with stringTable := table'
                         euStates := st.euStates ++ [(euId, euState)] })

/-- `SimpleTraceBuilder.finish_eu`: pop the unit's state (a `KeyError`
    if unregistered), then `assert` no trace is still open — note the
    pop happens before the assertion, as in the code. -/
def BuilderState.finishEu (st : BuilderState) (euId : List Nat) :
    Except PyErr Unit × BuilderState :=
  match alookup st.euStates euId with
  | none => (.error .keyError, st)
  | some euState =>
      let st' := { st with euStates := st.euStates.filter (fun p => p.1 ≠ euId) }
      if euState.isTraceOngoing then (.error .assertionError, st')
      else (.ok (), st')

/-- `SimpleTraceBuilder.start_trace`: build a fresh fragment, then look
    the unit up (a `KeyError` if unregistered), `assert` no trace is
    open, and install the fragment (its routed PDU keeps the trace id
    as routing key). -/
def BuilderState.startTrace (st : BuilderState) (euId : List Nat)
    (traceId : List Nat) : Except PyErr Unit × BuilderState :=
  let fragment : TraceFragment :=
    { traceId := traceId, executionUnitId := euId, events := [] }
  match alookup st.euStates euId with
  | none => (.error .keyError, st)
  | some euState =>
      if euState.isTraceOngoing then (.error .assertionError, st)
      else
        let euState' := { euState with isTraceOngoing := true
                                       openFragment := some fragment }
        (.ok (), { st with euStates := adset st.euStates euId euState' })

/-- `SimpleTraceBuilder.add_event`: look the unit up (`KeyError` if
    unregistered), `assert` a trace is open, and append a new event to
    the open fragment; each cause produces a causing-event entry whose
    `trace_id` field is set only when it differs from the fragment's
    trace id, and whose `event_id` is always set.  The last-event
    reference (`event_pdu`) is pointed at the new event. -/
def BuilderState.addEvent (st : BuilderState) (euId : List Nat)
    (_traceId : List Nat) (sequenceNumber : Int) (eventType : EventType)
    (status : EventStatus) (causes : List (List Nat × List Nat)) :
    Except PyErr Unit × BuilderState :=
  match alookup st.euStates euId with
  | none => (.error .keyError, st)
  | some euState =>
      if euState.isTraceOngoing then
        match euState.openFragment with
        | none => (.error .attributeError, st)
        | some fragment =>
            let eventPdu : Event :=
              { sequenceNumber := sequenceNumber
                eventType := eventType
                status := status
                causingEvents := causes.map (fun c =>
                  { traceId := if c.1 ≠ fragment.traceId then some c.1 else none
                    eventId := c.2 })
                tags := [] }
            let fragment' := { fragment with events := fragment.events ++ [eventPdu] }
            let euState' := { euState with openFragment := some fragment'
                                           hasEvent := true }
            (.ok (), { st with euStates := adset st.euStates euId euState' })
      else (.error .assertionError, st)

/-- Append tags to the most recently created event (the one `event_pdu`
    references, i.e. the last event of the open fragment). -/
def EuState.appendEventTag (euState : EuState) (tag : WireTag) : EuState :=
  match euState.openFragment with
  | none => euState
  | some fragment =>
      let events' := fragment.events.dropLast ++
        ((fragment.events.getLast?).map
          (fun ev => [{ ev with tags := ev.tags ++ [tag] }])).getD []
      { euState with openFragment := some { fragment with events := events' } }

/-- The per-tag loop body of `SimpleTraceBuilder.add_tags`: look the
    key up in the last-value cache — a `KeyError` aborts the loop when
    it was never recorded —, suppress an unchanged value (Python `==`)
    down to a `None` tombstone, otherwise record the new value in the
    cache; then `_add_tag` the result onto the last event. -/
def addTagsLoop (table : StringTable) (euState : EuState) :
    List (String × PyValue) →
    Except PyErr Unit × StringTable × EuState
  | [] => (.ok (), table, euState)
  | (key, value) :: rest =>
      match alookup euState.eventTags key with
      | none => (.error .keyError, table, euState)
      | some lastValue =>
          let (valueToAdd, euState₁) :=
            if pyEq value lastValue then (none, euState)
            else (some value,
                  { euState with eventTags := adset euState.eventTags key value })
          let (tag, table') := addTag table key valueToAdd
          addTagsLoop table' (euState₁.appendEventTag tag) rest

/-- `SimpleTraceBuilder.add_tags`: look the unit up (`KeyError` if
    unregistered), `assert` a trace is open, then run the per-tag loop;
    on a `KeyError` inside the loop the tags already processed stay
    applied, as with Python's in-place mutation. -/
def BuilderState.addTags (st : BuilderState) (euId : List Nat)
    (_targetEventId : List Nat) (tags : List (String × PyValue)) :
    Except PyErr Unit × BuilderState :=
  match alookup st.euStates euId with
  | none => (.error .keyError, st)
  | some euState =>
      if euState.isTraceOngoing then
        let (r, table', euState') := addTagsLoop st.stringTable euState tags
        (r, { st with stringTable := table'
                      euStates := adset st.euStates euId euState' })
      else (.error .assertionError, st)

/-- `SimpleTraceBuilder.finish_trace`: look the unit up (`KeyError` if
    unregistered), `assert` a trace is open, close it and clear the
    last-value tag cache, `assert` the closing trace id matches the
    fragment's (the two prior mutations stick even when this assertion
    fires, as in the code); then, if the string table is dirty, emit a
    broadcast PDU with its contents, and finally emit the routed PDU
    carrying the fragment and the unit's descriptor. -/
def BuilderState.finishTrace (st : BuilderState) (euId : List Nat)
    (traceId : List Nat) : Except PyErr Unit × BuilderState :=
  match alookup st.euStates euId with
  | none => (.error .keyError, st)
  | some euState =>
      if euState.isTraceOngoing then
        let euState₁ := { euState with isTraceOngoing := false, eventTags := [] }
        let st₁ := { st with euStates := adset st.euStates euId euState₁ }
        match euState₁.openFragment with
        | none => (.error .attributeError, st₁)
        | some fragment =>
            if fragment.traceId ≠ traceId then (.error .assertionError, st₁)
            else
              let st₂ :=
                if st₁.stringTable.isDirty then
                  let (entries, table') := st₁.stringTable.saveTo
                  { st₁ with stringTable := table'
                             emitted := st₁.emitted ++ [.broadcast entries] }
                else st₁
              (.ok (), { st₂ with emitted := st₂.emitted ++
                  [.routed fragment.traceId [fragment] [euState₁.euPdu]] })
      else (.error .assertionError, st)

/-! ## `ExecutionUnit` (eu.py)

The event-numbering mechanics, `peek`, `getTraceContext` and the
builder-call sequences of `tracePoint`/`finish` are translated from
`eu.py`.  The lifecycle glue that the rest of the repository calls (the
constructor taking the shared builder, starting the unit's first trace)
belongs to a revision of `ExecutionUnit` absent from `src/` — its
callers (`concurrency_model.py`, `test_eu.py`) and the
builder it drives are present — and is modelled from the spec where
noted. -/

/-- `TraceContext` of eu.py: the `(trace id bytes, event id bytes)`
    pair. -/
structure TraceContext : Type where
  traceId : List Nat
  eventId : List Nat
  deriving DecidableEq, Repr

/-- The three counters of `ExecutionUnit._initEventNumbering`:
    `eventSequenceNbr` (the most recently produced event, initially the
    unused `-1`), `nextEventSequenceNbr`, and the `itertools.count(0)`
    generator state. -/
structure EuNumbering : Type where
  eventSequenceNbr : Int
  nextEventSequenceNbr : Int
  counter : Nat
  deriving DecidableEq, Repr

/-- The state set up at the top of `ExecutionUnit.__init__`, before the
    first `_generateNextEventId()` call. -/
def EuNumbering.start : EuNumbering :=
  { eventSequenceNbr := -1, nextEventSequenceNbr := 0, counter := 0 }

/-- `_generateNextEventId`: switch the actual event id to the next one
    and draw a fresh number from the counter. -/
def EuNumbering.gen (n : EuNumbering) : EuNumbering :=
  { eventSequenceNbr := n.nextEventSequenceNbr
    nextEventSequenceNbr := n.counter
    counter := n.counter + 1 }

/-- An `ExecutionUnit`: its 8 random identity bytes, the numbering
    state, and the trace id it is currently part of. -/
structure ExecutionUnit : Type where
  id : List Nat
  numbering : EuNumbering
  traceId : List Nat
  deriving DecidableEq, Repr

/-- `ExecutionUnit._getEventId`: the 64-bit FNV-1a hash of the
    little-endian encoding of the (sequence number, eu-id) pair, packed
    back to 8 little-endian bytes.  (The sequence number is never
    negative when this runs; the initial `-1` "is used nowhere" per the
    source comment.) -/
def ExecutionUnit.getEventIdFor (eu : ExecutionUnit) (sequenceNbr : Int) :
    List Nat :=
  leBytes 8 (fnv1a64 (leBytes 8 sequenceNbr.toNat ++ eu.id))

/-- `ExecutionUnit.getTraceContext`: reference to the most recently
    produced event. -/
def ExecutionUnit.getTraceContext (eu : ExecutionUnit) : TraceContext :=
  { traceId := eu.traceId
    eventId := eu.getEventIdFor eu.numbering.eventSequenceNbr }

/-- `ExecutionUnit.peek`: reference to the event the next `tracePoint`
    (or `finish`) will produce. -/
def ExecutionUnit.peek (eu : ExecutionUnit) : TraceContext :=
  { traceId := eu.traceId
    eventId := eu.getEventIdFor eu.numbering.nextEventSequenceNbr }

/-- `ExecutionUnit.__init__` against the shared builder.  Modelled from
    the spec: the final-revision constructor (the one
    `concurrency_model.py` and the tests call, which receives the
    builder explicitly) is absent from `src/`; per spec §3/§4.1 it
    registers the unit, opens a fresh trace (the unit id and the minted
    trace id are parameters here, standing for the random 8 bytes and
    the `uuid1()` result), and produces the implicit initial event.
    The event numbering and the initial event's `CREATE_EU`/`BUSY`
    arguments follow `eu.py`'s `__init__` as found in `src/`. -/
def euCreate (st : BuilderState) (id : List Nat) (freshTraceId : List Nat)
    (euType : Nat) (tags : List (String × PyValue)) :
    ExecutionUnit × BuilderState :=
  let n₁ := EuNumbering.start.gen
  let st₁ := (st.startEu id euType tags).2
  let st₂ := (st₁.startTrace id freshTraceId).2
  let st₃ := (st₂.addEvent id freshTraceId n₁.nextEventSequenceNbr
                .createEu .busy []).2
  ({ id := id, numbering := n₁.gen, traceId := freshTraceId }, st₃)

/-- `ExecutionUnit.tracePoint`: when a causing context from a different
    trace is given and `switchTrace` is set, finish the current trace
    and continue in the causing one; append the event under
    `nextEventSequenceNbr` with the cause (if any) attached, and
    advance the numbering. -/
def ExecutionUnit.tracePoint (eu : ExecutionUnit) (st : BuilderState)
    (eventType : EventType) (status : EventStatus)
    (causingContext : Option TraceContext) (switchTrace : Bool) :
    ExecutionUnit × BuilderState :=
  match causingContext with
  | none =>
      let st₂ := (st.addEvent eu.id eu.traceId eu.numbering.nextEventSequenceNbr
                    eventType status []).2
      ({ eu with numbering := eu.numbering.gen }, st₂)
  | some ctx =>
      if switchTrace ∧ ctx.traceId ≠ eu.traceId then
        let st' := (st.finishTrace eu.id eu.traceId).2
        let st'' := (st'.startTrace eu.id ctx.traceId).2
        let st₂ := (st''.addEvent eu.id ctx.traceId
                      eu.numbering.nextEventSequenceNbr eventType status
                      [(ctx.traceId, ctx.eventId)]).2
        ({ eu with traceId := ctx.traceId, numbering := eu.numbering.gen }, st₂)
      else
        let st₂ := (st.addEvent eu.id eu.traceId
                      eu.numbering.nextEventSequenceNbr eventType status
                      [(ctx.traceId, ctx.eventId)]).2
        ({ eu with numbering := eu.numbering.gen }, st₂)

/-- `ExecutionUnit.addTags`: delegate to the builder for the most
    recently created event. -/
def ExecutionUnit.addTags (eu : ExecutionUnit) (st : BuilderState)
    (tags : List (String × PyValue)) : Except PyErr Unit × BuilderState :=
  st.addTags eu.id (eu.getEventIdFor eu.numbering.eventSequenceNbr) tags

/-- `ExecutionUnit.finish`: append the terminal `FINISH_EU`/`IDLE`
    event under `nextEventSequenceNbr`, finish the trace, unregister
    the unit. -/
def ExecutionUnit.finish (eu : ExecutionUnit) (st : BuilderState) :
    BuilderState :=
  let st₁ := (st.addEvent eu.id eu.traceId eu.numbering.nextEventSequenceNbr
                .finishEu .idle []).2
  let st₂ := (st₁.finishTrace eu.id eu.traceId).2
  (st₂.finishEu eu.id).2

def c6TableAfterFirstIntern : StringTable :=
  (StringTable.init.getAlias "alpha").2

def c6TableAfterSecondIntern : StringTable :=
  ((c6TableAfterFirstIntern.saveTo).2.getAlias "beta").2

def c8StateOngoing : BuilderState :=
  let st₁ := (BuilderState.init.startEu [1] 1 []).2
  (st₁.startTrace [1] [7]).2

/-- The per-unit state held inside `c8StateOngoing` for unit `[1]`. -/
def c8EuState : EuState :=
  { euPdu := { id := [1], euType := 1, tags := [] }
    isTraceOngoing := true
    eventTags := []
    openFragment := some { traceId := [7], executionUnitId := [1], events := [] }
    hasEvent := false }

/-- The per-unit state of a freshly registered unit `[1]`. -/
def c8EuStateFresh : EuState :=
  { euPdu := { id := [1], euType := 1, tags := [] }
    isTraceOngoing := false
    eventTags := []
    openFragment := none
    hasEvent := false }

/-! ## C2: the last-value suppression path is unreachable -/

/-- Every registered unit's last-value tag cache is empty. -/
def cachesEmpty (st : BuilderState) : Prop :=
  ∀ p ∈ st.euStates, p.2.eventTags = []

instance (st : BuilderState) : Decidable (cachesEmpty st) := by
  unfold cachesEmpty; infer_instance

def c2Scenario : ExecutionUnit × BuilderState :=
  euCreate BuilderState.init [1, 2, 3, 4, 5, 6, 7, 8] (List.replicate 16 9) 1 []

/-! ## Claims about event numbering and `peek` (C3, C4) -/

/-- The arguments of one `tracePoint` call. -/
structure TracePointArgs : Type where
  eventType : EventType
  status : EventStatus
  causingContext : Option TraceContext
  switchTrace : Bool

/-- The sequence numbers handed to `add_event` by a series of
    `tracePoint` calls (each call passes `nextEventSequenceNbr`). -/
def runTracePoints : ExecutionUnit × BuilderState → List TracePointArgs →
    List Int
  | _, [] => []
  | (eu, st), a :: rest =>
      eu.numbering.nextEventSequenceNbr ::
        runTracePoints
          (eu.tracePoint st a.eventType a.status a.causingContext a.switchTrace)
          rest

def c3Args : List TracePointArgs :=
  [{ eventType := .otStartSpan, status := .busy, causingContext := none,
     switchTrace := true },
   { eventType := .otFinishSpan, status := .idle, causingContext := none,
     switchTrace := true },
   { eventType := .otStartSpan, status := .busy, causingContext := none,
     switchTrace := false }]

/-! ## C1: the create-and-finish end-to-end scenario -/

/-- Creating a unit (registration, fresh trace, implicit initial
    event) and immediately finishing it. -/
def c1Scenario (euId traceId : List Nat) (euType : Nat)
    (tags : List (String × PyValue)) : BuilderState :=
  let p := euCreate BuilderState.init euId traceId euType tags
  p.1.finish p.2

def c1Run : BuilderState :=
  c1Scenario [1, 2, 3, 4, 5, 6, 7, 8] (List.replicate 16 9) 2
    [("b", .bool true), ("i", .int 42), ("f", .float (3 : ℚ)),
     ("s", .str "hello"), ("by", .bytes [1, 2])]

/-- The tag list of the unit descriptor inside the routed PDU emitted
    by `c1Run`. -/
def c1DescriptorTags : List WireTag :=
  match c1Run.emitted with
  | [_, PDU.routed _ _ [eu]] => eu.tags
  | _ => []

/-! ## Propagators (C9)

Translated from `binary_propagator.py`, `text_propagator.py` and
`w3c_propagator.py`.  Python strings on this codec layer are modelled
as `List Char`; `bytes`/`bytearray` as `List Nat`; header dicts as
insertion-ordered association lists.  `uuid.UUID` values are modelled
by their 16 big-endian bytes; `UUID(...)` parsing checks the length,
and the `variant`/`version` accessors become arithmetic on bytes 8 and
6 (`variant == RFC_4122` iff byte 8 starts with bits `10`, `version`
is the high nibble of byte 6). -/

/-- `EventReference`.  Modelled from the spec: §3 defines it as the
    triple `{trace_id, event_id, originating_unit_id}` and all three
    propagators construct it with an `eu_id` field; the two-field
    `NamedTuple` still present in `tracebuilder.py` predates them. -/
structure EventReference : Type where
  traceId : List Nat
  eventId : List Nat
  euId : Option (List Nat)
  deriving DecidableEq, Repr

/-- `SpanContext` of `context.py`: an event reference plus baggage. -/
structure SpanContext : Type where
  eventReference : EventReference
  baggage : List (List Char × List Char)
  deriving DecidableEq, Repr

/-- Errors raised by the propagators: `InvalidCarrierException`,
    `SpanContextCorruptedException`, and the uncaught `KeyError` of a
    missing `traceparent` header. -/
inductive PropErr : Type
  | invalidCarrier
  | corrupted
  | keyError
  deriving DecidableEq, Repr

/-- The lowercase hex digit for a nibble (Python's `hex()` output
    alphabet). -/
def nibbleChar (n : Nat) : Char :=
  if n % 16 < 10 then Char.ofNat ('0'.toNat + n % 16)
  else Char.ofNat ('a'.toNat + (n % 16 - 10))

/-- Value of one hex digit (`bytes.fromhex` accepts both cases). -/
def hexVal (c : Char) : Option Nat :=
  if '0' ≤ c ∧ c ≤ '9' then some (c.toNat - '0'.toNat)
  else if 'a' ≤ c ∧ c ≤ 'f' then some (c.toNat - 'a'.toNat + 10)
  else if 'A' ≤ c ∧ c ≤ 'F' then some (c.toNat - 'A'.toNat + 10)
  else none

/-- `bytes.hex()` / `UUID.hex`: two lowercase digits per byte. -/
def bytesToHex (bs : List Nat) : List Char :=
  bs.flatMap (fun b => [nibbleChar ((b % 256) / 16), nibbleChar (b % 16)])

/-- `bytes.fromhex` on a run of hex digits (the whitespace skipping of
    the Python original is not modelled; no caller emits whitespace). -/
def hexToBytes : List Char → Option (List Nat)
  | [] => some []
  | [_] => none
  | c₁ :: c₂ :: rest =>
      match hexVal c₁, hexVal c₂, hexToBytes rest with
      | some h, some l, some bs => some ((16 * h + l) :: bs)
      | _, _, _ => none

/-- `str.split('-')`. -/
def splitOnDash : List Char → List (List Char)
  | [] => [[]]
  | c :: rest =>
      if c = '-' then [] :: splitOnDash rest
      else
        match splitOnDash rest with
        | [] => [[c]]
        | x :: xs => (c :: x) :: xs

/-- `trace_id.variant == uuid.RFC_4122 and trace_id.version == 1` on
    the 16 UUID bytes. -/
def uuidVariantVersionOk (bs : List Nat) : Bool :=
  bs.getD 8 0 / 64 = 2 ∧ bs.getD 6 0 / 16 = 1

/-- `SimpleBinaryPropagator.inject`: append version byte 0, the 16
    trace-id bytes, the 8 event-id bytes and flags byte 1 to the
    carrier.  (The `type(carrier) is bytearray` guard holds by typing
    here.) -/
def binInject (ctx : SpanContext) (carrier : List Nat) : List Nat :=
  carrier ++ 0 :: (ctx.eventReference.traceId ++
    (ctx.eventReference.eventId ++ [1]))

/-- `SimpleBinaryPropagator.extract`: reject carriers shorter than 26
    bytes, slice version / trace id / parent id, reject version 255,
    parse the UUID and require RFC 4122 variant and version 1; baggage
    comes back empty. -/
def binExtract (carrier : List Nat) : Except PropErr SpanContext :=
  if carrier.length < 26 then .error .corrupted
  else
    let version := carrier.headD 0
    let traceIdBytes := (carrier.drop 1).take 16
    let parentId := (carrier.drop 17).take 8
    if version = 255 then .error .corrupted
    else if traceIdBytes.length = 16 then
      if uuidVariantVersionOk traceIdBytes then
        .ok { eventReference :=
                { traceId := traceIdBytes, eventId := parentId, euId := none }
              baggage := [] }
      else .error .corrupted
    else .error .corrupted

/-- `'ot-tracer-'`. -/
def prefixTracerState : List Char :=
  ['o', 't', '-', 't', 'r', 'a', 'c', 'e', 'r', '-']

/-- `'ot-baggage-'`. -/
def prefixBaggage : List Char :=
  ['o', 't', '-', 'b', 'a', 'g', 'g', 'a', 'g', 'e', '-']

/-- `prefix_tracer_state + 'trace_id'`. -/
def fieldNameTraceId : List Char :=
  prefixTracerState ++ ['t', 'r', 'a', 'c', 'e', '_', 'i', 'd']

/-- `prefix_tracer_state + 'spanid'`. -/
def fieldNameSpanId : List Char :=
  prefixTracerState ++ ['s', 'p', 'a', 'n', 'i', 'd']

/-- `prefix_tracer_state + 'sampled'`. -/
def fieldNameSampled : List Char :=
  prefixTracerState ++ ['s', 'a', 'm', 'p', 'l', 'e', 'd']

def trueChars : List Char := ['t', 'r', 'u', 'e']

def falseChars : List Char := ['f', 'a', 'l', 's', 'e']

/-- `TextPropagator.inject`: write the three tracer fields and one
    `ot-baggage-`-prefixed entry per baggage item. -/
def textInject (ctx : SpanContext) (carrier : List (List Char × List Char)) :
    List (List Char × List Char) :=
  let c₁ := adset carrier fieldNameTraceId
    (bytesToHex ctx.eventReference.traceId)
  let c₂ := adset c₁ fieldNameSpanId (bytesToHex ctx.eventReference.eventId)
  let c₃ := adset c₂ fieldNameSampled trueChars
  ctx.baggage.foldl (fun c kv => adset c (prefixBaggage ++ kv.1) kv.2) c₃

/-- The `for k in carrier` loop of `TextPropagator.extract`: lower-case
    each key, parse the span id, the trace id (hex, then UUID length,
    variant and version checks) and the sampled flag, counting the
    tracer fields, and collect `ot-baggage-` entries under the
    remainder of the key. -/
def textExtractLoop : List (List Char × List Char) → Nat →
    Option (List Nat) → Option (List Nat) → List (List Char × List Char) →
    Except PropErr (Nat × Option (List Nat) × Option (List Nat) ×
      List (List Char × List Char))
  | [], count, traceId, spanId, bag => .ok (count, traceId, spanId, bag)
  | (k, v) :: rest, count, traceId, spanId, bag =>
      let klower := k.map Char.toLower
      if klower = fieldNameSpanId then
        match hexToBytes v with
        | none => .error .corrupted
        | some bs => textExtractLoop rest (count + 1) traceId (some bs) bag
      else if klower = fieldNameTraceId then
        match hexToBytes v with
        | none => .error .corrupted
        | some bs =>
            if bs.length = 16 then
              if uuidVariantVersionOk bs then
                textExtractLoop rest (count + 1) (some bs) spanId bag
              else .error .corrupted
            else .error .corrupted
      else if klower = fieldNameSampled then
        if v = trueChars ∨ v = ['1'] then
          textExtractLoop rest (count + 1) traceId spanId bag
        else if v = falseChars ∨ v = ['0'] then
          textExtractLoop rest (count + 1) traceId spanId bag
        else .error .corrupted
      else if prefixBaggage.isPrefixOf klower then
        textExtractLoop rest count traceId spanId
          (adset bag (klower.drop prefixBaggage.length) v)
      else textExtractLoop rest count traceId spanId bag

/-- `TextPropagator.extract`: run the loop and require exactly 3
    tracer fields; the result triple is the `trace_id`, `span_id` and
    `baggage` locals out of which the source builds
    `SpanContext(EventReference(trace_id, span_id, eu_id=None),
    baggage)`. -/
def textExtract (carrier : List (List Char × List Char)) :
    Except PropErr (Option (List Nat) × Option (List Nat) ×
      List (List Char × List Char)) :=
  match textExtractLoop carrier 0 none none [] with
  | .error e => .error e
  | .ok (count, traceId, spanId, bag) =>
      if count = 3 then .ok (traceId, spanId, bag) else .error .corrupted

def traceparentKey : List Char :=
  ['t', 'r', 'a', 'c', 'e', 'p', 'a', 'r', 'e', 'n', 't']

/-- `W3CPropagator.inject`: the `traceparent` header
    `"00-" + trace_id.hex + "-" + event_id.hex() + "-01"`. -/
def w3cInject (ctx : SpanContext) (carrier : List (List Char × List Char)) :
    List (List Char × List Char) :=
  adset carrier traceparentKey
    (['0', '0'] ++ '-' :: (bytesToHex ctx.eventReference.traceId ++
      '-' :: (bytesToHex ctx.eventReference.eventId ++ '-' :: ['0', '1'])))

/-- `W3CPropagator.extract`: a missing `traceparent` header raises
    `KeyError` (uncaught in the source); the header must split on `-`
    into exactly four fields; the trace id must parse as an RFC 4122
    version-1 UUID; the parent id and version byte must parse as hex,
    and version 255 is rejected; baggage comes back empty. -/
def w3cExtract (carrier : List (List Char × List Char)) :
    Except PropErr SpanContext :=
  match alookup carrier traceparentKey with
  | none => .error .keyError
  | some header =>
      match splitOnDash header with
      | [versionStr, traceIdStr, parentIdStr, _flagsStr] =>
          match hexToBytes traceIdStr with
          | none => .error .corrupted
          | some traceIdBytes =>
              if traceIdBytes.length = 16 then
                if uuidVariantVersionOk traceIdBytes then
                  match hexToBytes parentIdStr, hexToBytes versionStr with
                  | some parentId, some [version] =>
                      if version = 255 then .error .corrupted
                      else
                        .ok { eventReference :=
                                { traceId := traceIdBytes
                                  eventId := parentId
                                  euId := none }
                              baggage := [] }
                  | _, _ => .error .corrupted
              else .error .corrupted
            else .error .corrupted
      | _ => .error .corrupted

/-! ## Theorems -/

/-! ## Helper lemmas on association lists -/

theorem alookup_nil {α β : Type} [DecidableEq α] (k : α) :
    alookup ([] : List (α × β)) k = none := rfl

theorem alookup_cons {α β : Type} [DecidableEq α]
    (p : α × β) (rest : List (α × β)) (k : α) :
    alookup (p :: rest) k = if p.1 = k then some p.2 else alookup rest k := rfl

theorem adset_nil {α β : Type} [DecidableEq α] (k : α) (v : β) :
    adset ([] : List (α × β)) k v = [(k, v)] := rfl

theorem adset_cons {α β : Type} [DecidableEq α]
    (p : α × β) (rest : List (α × β)) (k : α) (v : β) :
    adset (p :: rest) k v =
      if p.1 = k then (p.1, v) :: rest else p :: adset rest k v := rfl

theorem alookup_append_of_some {α β : Type} [DecidableEq α]
    {l : List (α × β)} (l' : List (α × β)) {k : α} {v : β}
    (h : alookup l k = some v) : alookup (l ++ l') k = some v := by
  induction l with
  | nil => simp [alookup_nil] at h
  | cons p rest ih =>
      rw [alookup_cons] at h
      rw [List.cons_append, alookup_cons]
      by_cases hc : p.1 = k
      · simpa [hc] using h
      · simp only [hc, if_false] at h ⊢
        exact ih h

theorem mem_of_alookup_eq_some {α β : Type} [DecidableEq α]
    {l : List (α × β)} {k : α} {v : β}
    (h : alookup l k = some v) : (k, v) ∈ l := by
  induction l with
  | nil => simp [alookup_nil] at h
  | cons p rest ih =>
      rw [alookup_cons] at h
      by_cases hc : p.1 = k
      · simp only [hc, if_true] at h
        have : p = (k, v) := by
          rcases p with ⟨a, b⟩
          simp_all
        simp [this]
      · simp only [hc, if_false] at h
        exact List.mem_cons_of_mem _ (ih h)

theorem alookup_adset_self {α β : Type} [DecidableEq α]
    (l : List (α × β)) (k : α) (v : β) : alookup (adset l k v) k = some v := by
  induction l with
  | nil => simp [adset_nil, alookup_cons, alookup_nil]
  | cons p rest ih =>
      rw [adset_cons]
      split
      · rw [alookup_cons]
        simp_all
      · rw [alookup_cons]
        simp [*]

theorem alookup_adset_other {α β : Type} [DecidableEq α]
    (l : List (α × β)) {k k' : α} (v : β) (h : k ≠ k') :
    alookup (adset l k v) k' = alookup l k' := by
  induction l with
  | nil => simp [adset_nil, alookup_cons, alookup_nil, h]
  | cons p rest ih =>
      rw [adset_cons]
      split
      · rw [alookup_cons, alookup_cons]
        rename_i heq
        rw [heq]
        simp [h]
      · rw [alookup_cons, alookup_cons]
        split <;> simp [*]

theorem forall_mem_adset {α β : Type} [DecidableEq α]
    {l : List (α × β)} {k : α} {v : β} {P : α × β → Prop}
    (hl : ∀ p ∈ l, P p) (hv : ∀ a, P (a, v)) : ∀ p ∈ adset l k v, P p := by
  induction l with
  | nil =>
      intro p hp
      rw [adset_nil] at hp
      rcases List.mem_singleton.1 hp with rfl
      exact hv k
  | cons q rest ih =>
      intro p hp
      rw [adset_cons] at hp
      split at hp
      · rcases List.mem_cons.1 hp with rfl | hp
        · exact hv q.1
        · exact hl p (List.mem_cons_of_mem _ hp)
      · rcases List.mem_cons.1 hp with rfl | hp
        · exact hl p (List.mem_cons_self ..)
        · exact ih (fun r hr => hl r (List.mem_cons_of_mem _ hr)) p hp

/-! ## Claims about the string table (C5, C6) -/

theorem getAlias_preserves_binding (t : StringTable) (s s₂ : String) (a : Nat)
    (h : alookup t.aliasesByString s = some a) :
    alookup ((t.getAlias s₂).2).aliasesByString s = some a := by
  unfold StringTable.getAlias
  cases h₂ : alookup t.aliasesByString s₂ with
  | some _ => simpa using h
  | none =>
      cases h₃ : alookup t.stringsByAlias (fnv1a32 (strBytes s₂)) with
      | some _ => simpa [h₂, h₃] using h
      | none =>
          simp only [h₂, h₃]
          exact alookup_append_of_some _ h

theorem applySeq_preserves_binding (t : StringTable) (s : String) (a : Nat)
    (l : List String) (h : alookup t.aliasesByString s = some a) :
    alookup ((t.applySeq l).aliasesByString) s = some a := by
  induction l generalizing t with
  | nil => simpa [StringTable.applySeq] using h
  | cons s₂ rest ih =>
      have := getAlias_preserves_binding t s s₂ a h
      simpa [StringTable.applySeq] using ih _ this

/-- C5.  `get_alias` is stable and collision-safe: on a consistent
    table, a string already interned with alias `a` keeps yielding `a`
    with the table unchanged, and keeps the binding through any further
    sequence of `get_alias` calls; a string whose 32-bit hash is
    already bound to a different string always gets the
    `HashCollisionError` (modelled as `none`) with both mappings of the
    table left unchanged. -/
theorem C5_getAlias_stable_and_collision_safe
    (t : StringTable) (s : String) (hWF : t.WF) :
    (∀ a, alookup t.aliasesByString s = some a →
        t.getAlias s = (some a, t) ∧
        ∀ l, alookup ((t.applySeq l).aliasesByString) s = some a) ∧
    (∀ s', alookup t.stringsByAlias (fnv1a32 (strBytes s)) = some s' →
        s' ≠ s → t.getAlias s = (none, t)) := by
  constructor
  · intro a h
    refine ⟨?_, fun l => applySeq_preserves_binding t s a l h⟩
    unfold StringTable.getAlias
    simp [h]
  · intro s' hbound hne
    have hcache : alookup t.aliasesByString s = none := by
      cases hc : alookup t.aliasesByString s with
      | none => rfl
      | some a =>
          exfalso
          have hmem := mem_of_alookup_eq_some hc
          have h₁ : a = fnv1a32 (strBytes s) := (hWF (s, a) hmem).1
          have h₂ : alookup t.stringsByAlias a = some s := (hWF (s, a) hmem).2
          rw [← h₁, h₂] at hbound
          exact hne (Option.some_injective _ hbound).symm
    unfold StringTable.getAlias
    simp [hcache, hbound]

/-- Witness for C5 at a real FNV-1a 32 collision: after interning
    "costarring", looking up "liquid" (whose hash collides) errors and
    leaves the table unchanged, while "costarring" remains stably
    aliased. -/
theorem C5_witness :
    let t := (StringTable.init.getAlias "costarring").2
    t.getAlias "liquid" = (none, t) ∧
    t.getAlias "costarring" =
      (some (fnv1a32 (strBytes "costarring")), t) := by
  intro t
  have hWF : t.WF := by decide
  have h₁ := (C5_getAlias_stable_and_collision_safe t "liquid" hWF).2
    "costarring" (by decide) (by decide)
  have h₂ := ((C5_getAlias_stable_and_collision_safe t "costarring" hWF).1
    (fnv1a32 (strBytes "costarring")) (by decide)).1
  exact ⟨h₁, h₂⟩

/-- C6 counterexample: the first save emits the single pair interned so
    far; after interning one more string, the second save emits *both*
    pairs — including the pair already saved earlier — refuting that
    `save_to` emits exactly the pairs accumulated since the previous
    save. -/
theorem C6_counterexample :
    (c6TableAfterFirstIntern.saveTo).1 =
      [(fnv1a32 (strBytes "alpha"), "alpha")] ∧
    (c6TableAfterSecondIntern.saveTo).1 =
      [(fnv1a32 (strBytes "alpha"), "alpha"),
       (fnv1a32 (strBytes "beta"), "beta")] ∧
    (fnv1a32 (strBytes "alpha"), "alpha") ∈ (c6TableAfterSecondIntern.saveTo).1 := by
  refine ⟨by decide, by decide, by decide⟩

/-- C6 amended: every `save_to` call emits the *full* accumulated
    contents of the table — every `(alias, string)` pair interned since
    the table's creation, pairs saved earlier included — and clears the
    dirty flag. -/
theorem C6_saveTo_emits_full_table (t : StringTable) (s : String) (a : Nat)
    (hWF : t.WF) (h : alookup t.aliasesByString s = some a) :
    (a, s) ∈ (t.saveTo).1 ∧
    (t.saveTo).1 = t.stringsByAlias ∧
    (t.saveTo).2.isDirty = false := by
  refine ⟨?_, rfl, rfl⟩
  have hmem := mem_of_alookup_eq_some h
  have hw := hWF _ hmem
  exact mem_of_alookup_eq_some (by simpa [StringTable.saveTo] using hw.2)

/-- Witness for the amended C6. -/
theorem C6_witness :
    (fnv1a32 (strBytes "alpha"), "alpha") ∈
      (c6TableAfterSecondIntern.saveTo).1 ∧
    (c6TableAfterSecondIntern.saveTo).2.isDirty = false := by
  have h := C6_saveTo_emits_full_table c6TableAfterSecondIntern "alpha"
    (fnv1a32 (strBytes "alpha")) (by decide) (by decide)
  exact ⟨h.1, h.2.2⟩

/-! ## Claims about the builder operations (C7, C8, C10) -/

/-- C7.  `add_event` succeeds on a registered unit with an open trace
    and appends an event whose causing-event entries omit the trace id
    field exactly when the cause's trace id equals the open fragment's,
    include it exactly when it differs, and always record the cause's
    event id. -/
theorem C7_addEvent_cause_entries (st : BuilderState)
    (euId tid : List Nat) (seq : Int) (ty : EventType) (status : EventStatus)
    (causes : List (List Nat × List Nat)) (euState : EuState)
    (frag : TraceFragment)
    (hfind : alookup st.euStates euId = some euState)
    (hon : euState.isTraceOngoing = true)
    (hfrag : euState.openFragment = some frag) :
    (st.addEvent euId tid seq ty status causes).1 = .ok () ∧
    ∃ euState' frag',
      alookup (st.addEvent euId tid seq ty status causes).2.euStates euId =
        some euState' ∧
      euState'.openFragment = some frag' ∧
      frag'.events.getLast? = some
        { sequenceNumber := seq
          eventType := ty
          status := status
          causingEvents := causes.map (fun c =>
            { traceId := if c.1 = frag.traceId then none else some c.1
              eventId := c.2 })
          tags := [] } := by
  have hmap : causes.map (fun c : List Nat × List Nat =>
        ({ traceId := if c.1 ≠ frag.traceId then some c.1 else none
           eventId := c.2 } : CauseEntry)) =
      causes.map (fun c =>
        { traceId := if c.1 = frag.traceId then none else some c.1
          eventId := c.2 }) := by
    apply List.map_congr_left
    intro c _
    by_cases hc : c.1 = frag.traceId <;> simp [hc]
  unfold BuilderState.addEvent
  rw [hfind]
  simp only [hon, if_true, hfrag]
  refine ⟨by trivial, ?_⟩
  refine ⟨_, _, alookup_adset_self .., rfl, ?_⟩
  simp [hmap]

/-- Witness for C7: one same-trace cause (trace id omitted) and one
    cross-trace cause (trace id included) on a concrete unit. -/
theorem C7_witness :
    (c8StateOngoing.addEvent [1] [7] 0 .otStartSpan .busy
       [([7], [21]), ([8], [22])]).1 = .ok () ∧
    ∃ euState' frag',
      alookup (c8StateOngoing.addEvent [1] [7] 0 .otStartSpan .busy
          [([7], [21]), ([8], [22])]).2.euStates [1] = some euState' ∧
      euState'.openFragment = some frag' ∧
      frag'.events.getLast? = some
        { sequenceNumber := 0
          eventType := .otStartSpan
          status := .busy
          causingEvents :=
            [{ traceId := none, eventId := [21] },
             { traceId := some [8], eventId := [22] }]
          tags := [] } := by
  have h := C7_addEvent_cause_entries c8StateOngoing [1] [7] 0 .otStartSpan
    .busy [([7], [21]), ([8], [22])] c8EuState
    { traceId := [7], executionUnitId := [1], events := [] }
    (by decide) (by decide) (by decide)
  simpa using h

/-- C8.  The builder's precondition violations fail fast: starting a
    trace on a unit with one already open, finishing while none is
    open, finishing with a trace id different from the open fragment's,
    and adding an event on an unregistered unit, each raise — with the
    open fragment unmodified and no PDU handed to the reporter. -/
theorem C8_preconditions_fail_fast (st : BuilderState) (euId tid : List Nat)
    (seq : Int) (ty : EventType) (status : EventStatus)
    (causes : List (List Nat × List Nat)) :
    (∀ euState, alookup st.euStates euId = some euState →
      euState.isTraceOngoing = true →
        (st.startTrace euId tid).1 = .error .assertionError ∧
        (st.startTrace euId tid).2 = st) ∧
    (∀ euState, alookup st.euStates euId = some euState →
      euState.isTraceOngoing = false →
        (st.finishTrace euId tid).1 = .error .assertionError ∧
        (st.finishTrace euId tid).2 = st) ∧
    (∀ euState frag, alookup st.euStates euId = some euState →
      euState.isTraceOngoing = true → euState.openFragment = some frag →
      frag.traceId ≠ tid →
        (st.finishTrace euId tid).1 = .error .assertionError ∧
        (st.finishTrace euId tid).2.emitted = st.emitted ∧
        ∃ euState',
          alookup (st.finishTrace euId tid).2.euStates euId = some euState' ∧
          euState'.openFragment = some frag) ∧
    (alookup st.euStates euId = none →
        (st.addEvent euId tid seq ty status causes).1 = .error .keyError ∧
        (st.addEvent euId tid seq ty status causes).2 = st) := by
  refine ⟨?_, ?_, ?_, ?_⟩
  · intro euState hfind hon
    unfold BuilderState.startTrace
    rw [hfind]
    simp [hon]
  · intro euState hfind hoff
    unfold BuilderState.finishTrace
    rw [hfind]
    simp [hoff]
  · intro euState frag hfind hon hfrag hne
    unfold BuilderState.finishTrace
    rw [hfind]
    simp only [hon, if_true, hfrag, hne, ite_true, ne_eq, not_false_iff]
    exact ⟨by trivial, by trivial, _, alookup_adset_self .., rfl⟩
  · intro hnone
    unfold BuilderState.addEvent
    rw [hnone]
    exact ⟨rfl, rfl⟩

/-- Witness for C8, exercising all four conjuncts on concrete states:
    a registered unit with an open fragment for trace `[7]` rejects
    `start_trace` and a `finish_trace` of trace `[8]`; a freshly
    registered unit rejects `finish_trace`; an unregistered id rejects
    `add_event`. -/
theorem C8_witness :
    ((c8StateOngoing.startTrace [1] [7]).1 = .error .assertionError ∧
       (c8StateOngoing.startTrace [1] [7]).2 = c8StateOngoing) ∧
    ((c8StateOngoing.finishTrace [1] [8]).1 = .error .assertionError ∧
       (c8StateOngoing.finishTrace [1] [8]).2.emitted = c8StateOngoing.emitted) ∧
    (((BuilderState.init.startEu [1] 1 []).2.finishTrace [1] [7]).1 =
       .error .assertionError) ∧
    ((BuilderState.init.addEvent [1] [7] 0 .createEu .busy []).1 =
       .error .keyError) := by
  have h₁ := (C8_preconditions_fail_fast c8StateOngoing [1] [7] 0 .createEu
    .busy []).1 c8EuState (by decide) (by decide)
  have h₃ := (C8_preconditions_fail_fast c8StateOngoing [1] [8] 0 .createEu
    .busy []).2.2.1 c8EuState { traceId := [7], executionUnitId := [1], events := [] }
    (by decide) (by decide) (by decide) (by decide)
  have h₄ := ((C8_preconditions_fail_fast (BuilderState.init.startEu [1] 1 []).2
    [1] [7] 0 .createEu .busy []).2.1) c8EuStateFresh (by decide) (by decide)
  have h₅ := (C8_preconditions_fail_fast BuilderState.init [1] [7] 0 .createEu
    .busy []).2.2.2 (by decide)
  exact ⟨h₁, ⟨h₃.1, h₃.2.1⟩, h₄.1, h₅.1⟩

/-- On a registered unit with an open trace, `finish_trace` always (on
    every one of its outcomes) replaces the unit's state with one whose
    trace is closed and whose last-value tag cache is cleared. -/
theorem finishTrace_euStates_of_ongoing (st : BuilderState)
    (euId tid : List Nat) (euState : EuState)
    (hfind : alookup st.euStates euId = some euState)
    (hon : euState.isTraceOngoing = true) :
    (st.finishTrace euId tid).2.euStates =
      adset st.euStates euId
        { euState with isTraceOngoing := false, eventTags := [] } := by
  unfold BuilderState.finishTrace
  rw [hfind]
  simp only [hon, if_true]
  split
  · rfl
  · split
    · rfl
    · split <;> rfl

/-- C10.  On a registered unit with an open trace, `add_tags` with a
    key absent from the unit's last-value cache raises `KeyError` and
    leaves that key unrecorded; and after `finish_trace` on an open
    trace the cache is empty, whatever the outcome. -/
theorem C10_addTags_keyerror_and_cache_cleared (st : BuilderState)
    (euId target tid : List Nat) (k : String) (v : PyValue)
    (euState : EuState)
    (hfind : alookup st.euStates euId = some euState)
    (hon : euState.isTraceOngoing = true) :
    (alookup euState.eventTags k = none →
      (st.addTags euId target [(k, v)]).1 = .error .keyError ∧
      ∃ euState',
        alookup (st.addTags euId target [(k, v)]).2.euStates euId =
          some euState' ∧
        alookup euState'.eventTags k = none) ∧
    (∀ euState',
      alookup (st.finishTrace euId tid).2.euStates euId = some euState' →
      euState'.eventTags = []) := by
  constructor
  · intro hmiss
    unfold BuilderState.addTags addTagsLoop
    rw [hfind]
    simp only [hon, if_true, hmiss]
    exact ⟨by trivial, _, alookup_adset_self .., hmiss⟩
  · intro euState' hfind'
    rw [finishTrace_euStates_of_ongoing st euId tid euState hfind hon,
        alookup_adset_self] at hfind'
    cases hfind'
    rfl

/-- Witness for C10 on a concrete fresh unit with an open trace. -/
theorem C10_witness :
    ((c8StateOngoing.addTags [1] [] [("k", PyValue.int 5)]).1 =
       .error .keyError) ∧
    (∀ euState',
      alookup (c8StateOngoing.finishTrace [1] [7]).2.euStates [1] =
        some euState' → euState'.eventTags = []) := by
  have h := C10_addTags_keyerror_and_cache_cleared c8StateOngoing [1] [] [7]
    "k" (PyValue.int 5) c8EuState (by decide) (by decide)
  exact ⟨(h.1 (by decide)).1, h.2⟩

theorem addTagsLoop_preserves_empty (table : StringTable) (euState : EuState)
    (tags : List (String × PyValue)) (h : euState.eventTags = []) :
    ((addTagsLoop table euState tags).2.2).eventTags = [] := by
  cases tags with
  | nil => simpa [addTagsLoop] using h
  | cons kv rest =>
      unfold addTagsLoop
      rw [h]
      simpa [alookup_nil] using h

/-- C2, settled against the code as found: the last-value cache
    (`event_tags`) starts empty, is cleared by `finish_trace`, and is
    written only on the value-changed branch of `add_tags` — a branch
    guarded by a successful cache lookup.  Hence the cache is empty in
    every reachable builder state (an invariant preserved by all six
    operations), and on a freshly created unit with an open trace both
    the first and the second `add_tags` call for a key raise `KeyError`
    instead of recording and then suppressing the value. -/
theorem C2_addTags_cache_unreachable :
    (∀ st euId euType tags, cachesEmpty st →
        cachesEmpty (st.startEu euId euType tags).2) ∧
    (∀ st euId, cachesEmpty st → cachesEmpty (st.finishEu euId).2) ∧
    (∀ st euId tid, cachesEmpty st → cachesEmpty (st.startTrace euId tid).2) ∧
    (∀ st euId tid seq ty status causes, cachesEmpty st →
        cachesEmpty (st.addEvent euId tid seq ty status causes).2) ∧
    (∀ st euId target tags, cachesEmpty st →
        cachesEmpty (st.addTags euId target tags).2) ∧
    (∀ st euId tid, cachesEmpty st → cachesEmpty (st.finishTrace euId tid).2) ∧
    cachesEmpty BuilderState.init ∧
    ((c2Scenario.1.addTags c2Scenario.2 [("k", PyValue.int 5)]).1 =
       .error .keyError) ∧
    ((c2Scenario.1.addTags
        (c2Scenario.1.addTags c2Scenario.2 [("k", PyValue.int 5)]).2
        [("k", PyValue.int 5)]).1 = .error .keyError) := by
  refine ⟨?_, ?_, ?_, ?_, ?_, ?_, by decide, by decide, by decide⟩
  · intro st euId euType tags h
    have hshape : (st.startEu euId euType tags).2.euStates = st.euStates ∨
        ∃ X : EuState, X.eventTags = [] ∧
          (st.startEu euId euType tags).2.euStates =
            st.euStates ++ [(euId, X)] := by
      unfold BuilderState.startEu
      split
      · left; rfl
      · right; exact ⟨_, rfl, rfl⟩
    intro p hp
    rcases hshape with hs | ⟨X, hX, hs⟩ <;> rw [hs] at hp
    · exact h p hp
    · rcases List.mem_append.1 hp with hp | hp
      · exact h p hp
      · rcases List.mem_singleton.1 hp with rfl
        exact hX
  · intro st euId h
    have hshape : (st.finishEu euId).2.euStates = st.euStates ∨
        (st.finishEu euId).2.euStates =
          st.euStates.filter (fun p => p.1 ≠ euId) := by
      unfold BuilderState.finishEu
      split
      · left; rfl
      · right; split <;> rfl
    intro p hp
    rcases hshape with hs | hs <;> rw [hs] at hp
    · exact h p hp
    · exact h p (List.mem_of_mem_filter hp)
  · intro st euId tid h
    have hshape : (st.startTrace euId tid).2.euStates = st.euStates ∨
        ∃ euState X, alookup st.euStates euId = some euState ∧
          X.eventTags = euState.eventTags ∧
          (st.startTrace euId tid).2.euStates = adset st.euStates euId X := by
      unfold BuilderState.startTrace
      split
      · left; rfl
      · rename_i euState heq
        split
        · left; rfl
        · right
          refine ⟨euState, _, heq, ?_, rfl⟩
          rfl
    intro p hp
    rcases hshape with hs | ⟨euState, X, halo, hX, hs⟩ <;> rw [hs] at hp
    · exact h p hp
    · have hempty : euState.eventTags = [] :=
        h _ (mem_of_alookup_eq_some halo)
      exact forall_mem_adset h (fun _ => hX.trans hempty) p hp
  · intro st euId tid seq ty status causes h
    have hshape : (st.addEvent euId tid seq ty status causes).2.euStates =
          st.euStates ∨
        ∃ euState X, alookup st.euStates euId = some euState ∧
          X.eventTags = euState.eventTags ∧
          (st.addEvent euId tid seq ty status causes).2.euStates =
            adset st.euStates euId X := by
      unfold BuilderState.addEvent
      split
      · left; rfl
      · rename_i euState heq
        split
        · split
          · left; rfl
          · right
            refine ⟨euState, _, heq, ?_, rfl⟩
            rfl
        · left; rfl
    intro p hp
    rcases hshape with hs | ⟨euState, X, halo, hX, hs⟩ <;> rw [hs] at hp
    · exact h p hp
    · have hempty : euState.eventTags = [] :=
        h _ (mem_of_alookup_eq_some halo)
      exact forall_mem_adset h (fun _ => hX.trans hempty) p hp
  · intro st euId target tags h
    have hshape : (st.addTags euId target tags).2.euStates = st.euStates ∨
        ∃ euState, alookup st.euStates euId = some euState ∧
          (st.addTags euId target tags).2.euStates =
            adset st.euStates euId
              (addTagsLoop st.stringTable euState tags).2.2 := by
      unfold BuilderState.addTags
      split
      · left; rfl
      · rename_i euState heq
        split
        · right; exact ⟨euState, heq, rfl⟩
        · left; rfl
    intro p hp
    rcases hshape with hs | ⟨euState, halo, hs⟩ <;> rw [hs] at hp
    · exact h p hp
    · have hempty : euState.eventTags = [] :=
        h _ (mem_of_alookup_eq_some halo)
      exact forall_mem_adset h
        (fun _ => addTagsLoop_preserves_empty _ _ _ hempty) p hp
  · intro st euId tid h
    intro p hp
    cases halo : alookup st.euStates euId with
    | none =>
        have hs : (st.finishTrace euId tid).2.euStates = st.euStates := by
          unfold BuilderState.finishTrace
          rw [halo]
        rw [hs] at hp
        exact h p hp
    | some euState =>
        by_cases hon : euState.isTraceOngoing = true
        · rw [finishTrace_euStates_of_ongoing st euId tid euState halo hon] at hp
          exact forall_mem_adset h (fun _ => rfl) p hp
        · have hs : (st.finishTrace euId tid).2.euStates = st.euStates := by
            unfold BuilderState.finishTrace
            rw [halo]
            simp [hon]
          rw [hs] at hp
          exact h p hp

/-- Witness for C2: the invariant implications applied on concrete
    states, and the concrete `KeyError` facts restated. -/
theorem C2_witness :
    cachesEmpty (BuilderState.init.startEu [1] 1 []).2 ∧
    cachesEmpty c8StateOngoing ∧
    ((c2Scenario.1.addTags c2Scenario.2 [("k", PyValue.int 5)]).1 =
       .error .keyError) := by
  refine ⟨C2_addTags_cache_unreachable.1 BuilderState.init [1] 1 []
    (by decide), ?_, C2_addTags_cache_unreachable.2.2.2.2.2.2.2.1⟩
  have h₁ := C2_addTags_cache_unreachable.1 BuilderState.init [1] 1 []
    (by decide)
  exact C2_addTags_cache_unreachable.2.2.1 _ [1] [7] h₁

/-- `tracePoint` always advances the numbering by exactly one
    `_generateNextEventId` step, whatever the causing context. -/
theorem tracePoint_numbering (eu : ExecutionUnit) (st : BuilderState)
    (ty : EventType) (s : EventStatus) (ctx : Option TraceContext) (sw : Bool) :
    (eu.tracePoint st ty s ctx sw).1.numbering = eu.numbering.gen ∧
    (eu.tracePoint st ty s ctx sw).1.id = eu.id := by
  cases ctx with
  | none => exact ⟨rfl, rfl⟩
  | some c =>
      simp only [ExecutionUnit.tracePoint]
      constructor <;> (split <;> rfl)

/-- C3.  From any numbering state satisfying the generator invariant
    (the counter is one ahead of `nextEventSequenceNbr`, as holds from
    creation on), a series of `tracePoint` calls hands the builder the
    sequence numbers `next, next+1, next+2, …` — increasing by exactly
    1 per call, with no gaps, repeats or reuse — and a freshly created
    unit satisfies the invariant with `next = 1` (the implicit initial
    event having consumed 0). -/
theorem C3_sequence_numbers_increase_by_one (eu : ExecutionUnit)
    (st : BuilderState) (args : List TracePointArgs)
    (hinv : (eu.numbering.counter : Int) =
      eu.numbering.nextEventSequenceNbr + 1) :
    runTracePoints (eu, st) args =
      (List.range args.length).map
        (fun i : Nat => eu.numbering.nextEventSequenceNbr + (i : Int)) ∧
    ∀ st' id tid ty tags,
      ((euCreate st' id tid ty tags).1.numbering.counter : Int) =
        (euCreate st' id tid ty tags).1.numbering.nextEventSequenceNbr + 1 ∧
      (euCreate st' id tid ty tags).1.numbering.nextEventSequenceNbr = 1 := by
  refine ⟨?_, ?_⟩
  · induction args generalizing eu st with
    | nil => rfl
    | cons a rest ih =>
        have hnum := (tracePoint_numbering eu st a.eventType a.status
          a.causingContext a.switchTrace).1
        have hnext : (eu.tracePoint st a.eventType a.status a.causingContext
            a.switchTrace).1.numbering.nextEventSequenceNbr =
            eu.numbering.nextEventSequenceNbr + 1 := by
          rw [hnum]
          unfold EuNumbering.gen
          simpa using hinv
        have hinv' : ((eu.tracePoint st a.eventType a.status a.causingContext
            a.switchTrace).1.numbering.counter : Int) =
            (eu.tracePoint st a.eventType a.status a.causingContext
              a.switchTrace).1.numbering.nextEventSequenceNbr + 1 := by
          rw [hnum]
          unfold EuNumbering.gen
          push_cast
          ring
        have hrest := ih (eu.tracePoint st a.eventType a.status
          a.causingContext a.switchTrace).1
          (eu.tracePoint st a.eventType a.status a.causingContext
            a.switchTrace).2 hinv'
        show eu.numbering.nextEventSequenceNbr ::
          runTracePoints ((eu.tracePoint st a.eventType a.status
              a.causingContext a.switchTrace).1,
            (eu.tracePoint st a.eventType a.status a.causingContext
              a.switchTrace).2) rest = _
        rw [hrest, hnext, List.length_cons, List.range_succ_eq_map,
          List.map_cons, List.map_map]
        simp only [Nat.cast_zero, add_zero, List.cons.injEq, true_and]
        apply List.map_congr_left
        intro i _
        simp only [Function.comp_apply]
        push_cast
        ring
  · intro st' id tid ty tags
    constructor <;> rfl

/-- Witness for C3: on a freshly created unit three `tracePoint` calls
    get sequence numbers 1, 2, 3. -/
theorem C3_witness :
    runTracePoints
      ((euCreate BuilderState.init [1, 2, 3, 4, 5, 6, 7, 8]
          (List.replicate 16 9) 1 []).1,
       (euCreate BuilderState.init [1, 2, 3, 4, 5, 6, 7, 8]
          (List.replicate 16 9) 1 []).2) c3Args = [1, 2, 3] := by
  have h := (C3_sequence_numbers_increase_by_one
    (euCreate BuilderState.init [1, 2, 3, 4, 5, 6, 7, 8]
      (List.replicate 16 9) 1 []).1
    (euCreate BuilderState.init [1, 2, 3, 4, 5, 6, 7, 8]
      (List.replicate 16 9) 1 []).2 c3Args (by decide)).1
  rw [h]
  decide

set_option maxRecDepth 10000 in
/-- C4 counterexample: when the event-creating call carries a causing
    context from a *different* trace (with `switchTrace` left at its
    default `True`), the unit hops traces, so the reference `peek`
    returned beforehand differs from `get_trace_context` afterwards in
    its trace-id component. -/
theorem C4_counterexample :
    ((euCreate BuilderState.init [1, 2, 3, 4, 5, 6, 7, 8]
        (List.replicate 16 9) 1 []).1.tracePoint
      (euCreate BuilderState.init [1, 2, 3, 4, 5, 6, 7, 8]
        (List.replicate 16 9) 1 []).2
      .otStartSpan .busy
      (some { traceId := List.replicate 16 3,
              eventId := [0, 0, 0, 0, 0, 0, 0, 0] })
      true).1.getTraceContext ≠
    (euCreate BuilderState.init [1, 2, 3, 4, 5, 6, 7, 8]
        (List.replicate 16 9) 1 []).1.peek := by
  decide

/-- C4 amended: `peek` before the event equals `get_trace_context`
    after it whenever the event-creating call does not switch the unit
    to a different trace; the event-id component agrees even across a
    trace switch; and `peek` reads the unit's state without modifying
    it, so repeated calls agree until `tracePoint`/`finish` advance the
    numbering. -/
theorem C4_peek_getTraceContext_roundtrip (eu : ExecutionUnit)
    (st : BuilderState) (ty : EventType) (s : EventStatus)
    (ctx : Option TraceContext) (sw : Bool) :
    ((∀ c, ctx = some c → sw = true → c.traceId = eu.traceId) →
      (eu.tracePoint st ty s ctx sw).1.getTraceContext = eu.peek) ∧
    ((eu.tracePoint st ty s ctx sw).1.getTraceContext).eventId =
      eu.peek.eventId := by
  constructor
  · intro hns
    cases ctx with
    | none => rfl
    | some c =>
        simp only [ExecutionUnit.tracePoint]
        split
        · rename_i hcond
          exact absurd (hns c rfl hcond.1) hcond.2
        · rfl
  · cases ctx with
    | none => rfl
    | some c =>
        simp only [ExecutionUnit.tracePoint]
        split <;> rfl

/-- Witness for the amended C4 on a fresh unit and a plain
    `tracePoint` call without a causing context. -/
theorem C4_witness :
    ((euCreate BuilderState.init [1, 2, 3, 4, 5, 6, 7, 8]
        (List.replicate 16 9) 1 []).1.tracePoint
      (euCreate BuilderState.init [1, 2, 3, 4, 5, 6, 7, 8]
        (List.replicate 16 9) 1 []).2
      .otStartSpan .busy none true).1.getTraceContext =
    (euCreate BuilderState.init [1, 2, 3, 4, 5, 6, 7, 8]
        (List.replicate 16 9) 1 []).1.peek := by
  exact (C4_peek_getTraceContext_roundtrip _ _ .otStartSpan .busy none true).1
    (fun c hc _ => nomatch hc)

set_option maxRecDepth 10000 in
/-- C1 counterexample: in the create-and-finish scenario with tag
    `"s" ↦ "hello"`, the unit descriptor's transmitted tag values are
    `1, 42, 3, "s", 0x0102` — the string-valued tag carries the
    *key* `"s"` (`_add_tag` stores `tag_pdu.string_value = key`), and
    the original value `"hello"` appears nowhere, refuting that all
    five tags carry their original values. -/
theorem C1_counterexample :
    c1DescriptorTags.map (fun t => t.value) =
      [some (.int 1), some (.int 42), some (.float (3 : ℚ)),
       some (.str "s"), some (.bytes [1, 2])] ∧
    ¬ some (WireValue.str "hello") ∈ c1DescriptorTags.map (fun t => t.value) := by
  constructor <;> decide

set_option maxHeartbeats 2000000 in
/-- C1 amended: creating a unit with five tags of the five scalar
    kinds under keys whose 32-bit hashes are pairwise distinct, then
    finishing it immediately, emits exactly one broadcast PDU carrying
    the five key aliases followed by exactly one routed PDU whose
    single fragment holds the implicit initial event (sequence number
    0) and the `FINISH_EU` event (sequence number 1), and whose unit
    descriptor carries the five tags under their alias keys -- the
    boolean value stored in the integer field, the integer, float and
    bytes values verbatim, and the string-valued tag storing its *key*
    in place of the value, as the builder's own unit test expects. -/
theorem C1_create_finish_pdu_stream (euId traceId : List Nat) (euType : Nat)
    (k1 k2 k3 k4 k5 : String) (b : Bool) (n : Int) (q : ℚ) (s : String)
    (bs : List Nat) (a1 a2 a3 a4 a5 : Nat)
    (ha1 : a1 = fnv1a32 (strBytes k1)) (ha2 : a2 = fnv1a32 (strBytes k2))
    (ha3 : a3 = fnv1a32 (strBytes k3)) (ha4 : a4 = fnv1a32 (strBytes k4))
    (ha5 : a5 = fnv1a32 (strBytes k5))
    (h12 : a1 ≠ a2) (h13 : a1 ≠ a3) (h14 : a1 ≠ a4) (h15 : a1 ≠ a5)
    (h23 : a2 ≠ a3) (h24 : a2 ≠ a4) (h25 : a2 ≠ a5)
    (h34 : a3 ≠ a4) (h35 : a3 ≠ a5) (h45 : a4 ≠ a5) :
    (c1Scenario euId traceId euType
      [(k1, .bool b), (k2, .int n), (k3, .float q), (k4, .str s),
       (k5, .bytes bs)]).emitted =
    [PDU.broadcast [(a1, k1), (a2, k2), (a3, k3), (a4, k4), (a5, k5)],
     PDU.routed traceId
       [{ traceId := traceId
          executionUnitId := euId
          events :=
            [{ sequenceNumber := 0, eventType := .createEu, status := .busy,
               causingEvents := [], tags := [] },
             { sequenceNumber := 1, eventType := .finishEu, status := .idle,
               causingEvents := [], tags := [] }] }]
       [{ id := euId
          euType := euType
          tags :=
            [{ key := .alias a1, value := some (.int (if b then 1 else 0)) },
             { key := .alias a2, value := some (.int n) },
             { key := .alias a3, value := some (.float q) },
             { key := .alias a4, value := some (.str k4) },
             { key := .alias a5, value := some (.bytes bs) }] }]] := by
  have hk12 : ¬ k1 = k2 := fun h => h12 (by rw [ha1, ha2, h])
  have hk13 : ¬ k1 = k3 := fun h => h13 (by rw [ha1, ha3, h])
  have hk14 : ¬ k1 = k4 := fun h => h14 (by rw [ha1, ha4, h])
  have hk15 : ¬ k1 = k5 := fun h => h15 (by rw [ha1, ha5, h])
  have hk23 : ¬ k2 = k3 := fun h => h23 (by rw [ha2, ha3, h])
  have hk24 : ¬ k2 = k4 := fun h => h24 (by rw [ha2, ha4, h])
  have hk25 : ¬ k2 = k5 := fun h => h25 (by rw [ha2, ha5, h])
  have hk34 : ¬ k3 = k4 := fun h => h34 (by rw [ha3, ha4, h])
  have hk35 : ¬ k3 = k5 := fun h => h35 (by rw [ha3, ha5, h])
  have hk45 : ¬ k4 = k5 := fun h => h45 (by rw [ha4, ha5, h])
  have e1 : BuilderState.startEu BuilderState.init euId euType
      [(k1, .bool b), (k2, .int n), (k3, .float q), (k4, .str s),
       (k5, .bytes bs)] =
      (.ok (),
       { stringTable :=
           { stringsByAlias := [(a1, k1), (a2, k2), (a3, k3), (a4, k4), (a5, k5)]
             aliasesByString := [(k1, a1), (k2, a2), (k3, a3), (k4, a4), (k5, a5)]
             isDirty := true }
         euStates :=
           [(euId,
             { euPdu :=
                 { id := euId
                   euType := euType
                   tags :=
                     [{ key := .alias a1,
                        value := some (.int (if b then 1 else 0)) },
                      { key := .alias a2, value := some (.int n) },
                      { key := .alias a3, value := some (.float q) },
                      { key := .alias a4, value := some (.str k4) },
                      { key := .alias a5, value := some (.bytes bs) }] }
               isTraceOngoing := false
               eventTags := []
               openFragment := none
               hasEvent := false })]
         emitted := [] }) := by
    simp only [BuilderState.startEu, BuilderState.init, StringTable.init,
      StringTable.getAlias, addTag, encodeTagValue, alookup_nil, alookup_cons,
      List.foldl, List.nil_append, List.cons_append, Option.map,
      ← ha1, ← ha2, ← ha3, ← ha4, ← ha5,
      hk12, hk13, hk14, hk15, hk23, hk24, hk25, hk34, hk35, hk45,
      h12, h13, h14, h15, h23, h24, h25, h34, h35, h45,
      if_true, if_false, eq_self_iff_true]
  have e2 : BuilderState.startTrace
      { stringTable :=
          { stringsByAlias := [(a1, k1), (a2, k2), (a3, k3), (a4, k4), (a5, k5)]
            aliasesByString := [(k1, a1), (k2, a2), (k3, a3), (k4, a4), (k5, a5)]
            isDirty := true }
        euStates :=
          [(euId,
            { euPdu :=
                { id := euId
                  euType := euType
                  tags :=
                    [{ key := .alias a1,
                       value := some (.int (if b then 1 else 0)) },
                     { key := .alias a2, value := some (.int n) },
                     { key := .alias a3, value := some (.float q) },
                     { key := .alias a4, value := some (.str k4) },
                     { key := .alias a5, value := some (.bytes bs) }] }
              isTraceOngoing := false
              eventTags := []
              openFragment := none
              hasEvent := false })]
        emitted := [] } euId traceId =
      (.ok (),
       { stringTable :=
           { stringsByAlias := [(a1, k1), (a2, k2), (a3, k3), (a4, k4), (a5, k5)]
             aliasesByString := [(k1, a1), (k2, a2), (k3, a3), (k4, a4), (k5, a5)]
             isDirty := true }
         euStates :=
           [(euId,
             { euPdu :=
                 { id := euId
                   euType := euType
                   tags :=
                     [{ key := .alias a1,
                        value := some (.int (if b then 1 else 0)) },
                      { key := .alias a2, value := some (.int n) },
                      { key := .alias a3, value := some (.float q) },
                      { key := .alias a4, value := some (.str k4) },
                      { key := .alias a5, value := some (.bytes bs) }] }
               isTraceOngoing := true
               eventTags := []
               openFragment := some
                 { traceId := traceId, executionUnitId := euId, events := [] }
               hasEvent := false })]
         emitted := [] }) := by
    simp [BuilderState.startTrace, alookup_cons, adset_cons]

  have e3 : BuilderState.addEvent { stringTable := { stringsByAlias := [(a1, k1), (a2, k2), (a3, k3), (a4, k4), (a5, k5)], aliasesByString := [(k1, a1), (k2, a2), (k3, a3), (k4, a4), (k5, a5)], isDirty := true }, euStates := [(euId, { euPdu := { id := euId, euType := euType, tags := [{ key := .alias a1, value := some (.int (if b then 1 else 0)) }, { key := .alias a2, value := some (.int n) }, { key := .alias a3, value := some (.float q) }, { key := .alias a4, value := some (.str k4) }, { key := .alias a5, value := some (.bytes bs) }] }, isTraceOngoing := true, eventTags := [], openFragment := some { traceId := traceId, executionUnitId := euId, events := [] }, hasEvent := false })], emitted := [] } euId traceId 0 .createEu .busy [] = (.ok (), { stringTable := { stringsByAlias := [(a1, k1), (a2, k2), (a3, k3), (a4, k4), (a5, k5)], aliasesByString := [(k1, a1), (k2, a2), (k3, a3), (k4, a4), (k5, a5)], isDirty := true }, euStates := [(euId, { euPdu := { id := euId, euType := euType, tags := [{ key := .alias a1, value := some (.int (if b then 1 else 0)) }, { key := .alias a2, value := some (.int n) }, { key := .alias a3, value := some (.float q) }, { key := .alias a4, value := some (.str k4) }, { key := .alias a5, value := some (.bytes bs) }] }, isTraceOngoing := true, eventTags := [], openFragment := some { traceId := traceId, executionUnitId := euId, events := [{ sequenceNumber := 0, eventType := .createEu, status := .busy, causingEvents := [], tags := [] }] }, hasEvent := true })], emitted := [] }) := by
    simp [BuilderState.addEvent, alookup_cons, adset_cons]
  have e4 : euCreate BuilderState.init euId traceId euType [(k1, .bool b), (k2, .int n), (k3, .float q), (k4, .str s), (k5, .bytes bs)] = ({ id := euId, numbering := { eventSequenceNbr := 0, nextEventSequenceNbr := 1, counter := 2 }, traceId := traceId }, { stringTable := { stringsByAlias := [(a1, k1), (a2, k2), (a3, k3), (a4, k4), (a5, k5)], aliasesByString := [(k1, a1), (k2, a2), (k3, a3), (k4, a4), (k5, a5)], isDirty := true }, euStates := [(euId, { euPdu := { id := euId, euType := euType, tags := [{ key := .alias a1, value := some (.int (if b then 1 else 0)) }, { key := .alias a2, value := some (.int n) }, { key := .alias a3, value := some (.float q) }, { key := .alias a4, value := some (.str k4) }, { key := .alias a5, value := some (.bytes bs) }] }, isTraceOngoing := true, eventTags := [], openFragment := some { traceId := traceId, executionUnitId := euId, events := [{ sequenceNumber := 0, eventType := .createEu, status := .busy, causingEvents := [], tags := [] }] }, hasEvent := true })], emitted := [] }) := by
    simp [euCreate, EuNumbering.start, EuNumbering.gen, e1, e2, e3]
  have e5 : BuilderState.addEvent { stringTable := { stringsByAlias := [(a1, k1), (a2, k2), (a3, k3), (a4, k4), (a5, k5)], aliasesByString := [(k1, a1), (k2, a2), (k3, a3), (k4, a4), (k5, a5)], isDirty := true }, euStates := [(euId, { euPdu := { id := euId, euType := euType, tags := [{ key := .alias a1, value := some (.int (if b then 1 else 0)) }, { key := .alias a2, value := some (.int n) }, { key := .alias a3, value := some (.float q) }, { key := .alias a4, value := some (.str k4) }, { key := .alias a5, value := some (.bytes bs) }] }, isTraceOngoing := true, eventTags := [], openFragment := some { traceId := traceId, executionUnitId := euId, events := [{ sequenceNumber := 0, eventType := .createEu, status := .busy, causingEvents := [], tags := [] }] }, hasEvent := true })], emitted := [] } euId traceId 1 .finishEu .idle [] = (.ok (), { stringTable := { stringsByAlias := [(a1, k1), (a2, k2), (a3, k3), (a4, k4), (a5, k5)], aliasesByString := [(k1, a1), (k2, a2), (k3, a3), (k4, a4), (k5, a5)], isDirty := true }, euStates := [(euId, { euPdu := { id := euId, euType := euType, tags := [{ key := .alias a1, value := some (.int (if b then 1 else 0)) }, { key := .alias a2, value := some (.int n) }, { key := .alias a3, value := some (.float q) }, { key := .alias a4, value := some (.str k4) }, { key := .alias a5, value := some (.bytes bs) }] }, isTraceOngoing := true, eventTags := [], openFragment := some { traceId := traceId, executionUnitId := euId, events := [{ sequenceNumber := 0, eventType := .createEu, status := .busy, causingEvents := [], tags := [] }, { sequenceNumber := 1, eventType := .finishEu, status := .idle, causingEvents := [], tags := [] }] }, hasEvent := true })], emitted := [] }) := by
    simp [BuilderState.addEvent, alookup_cons, adset_cons]
  have e6 : BuilderState.finishTrace { stringTable := { stringsByAlias := [(a1, k1), (a2, k2), (a3, k3), (a4, k4), (a5, k5)], aliasesByString := [(k1, a1), (k2, a2), (k3, a3), (k4, a4), (k5, a5)], isDirty := true }, euStates := [(euId, { euPdu := { id := euId, euType := euType, tags := [{ key := .alias a1, value := some (.int (if b then 1 else 0)) }, { key := .alias a2, value := some (.int n) }, { key := .alias a3, value := some (.float q) }, { key := .alias a4, value := some (.str k4) }, { key := .alias a5, value := some (.bytes bs) }] }, isTraceOngoing := true, eventTags := [], openFragment := some { traceId := traceId, executionUnitId := euId, events := [{ sequenceNumber := 0, eventType := .createEu, status := .busy, causingEvents := [], tags := [] }, { sequenceNumber := 1, eventType := .finishEu, status := .idle, causingEvents := [], tags := [] }] }, hasEvent := true })], emitted := [] } euId traceId = (.ok (), { stringTable := { stringsByAlias := [(a1, k1), (a2, k2), (a3, k3), (a4, k4), (a5, k5)], aliasesByString := [(k1, a1), (k2, a2), (k3, a3), (k4, a4), (k5, a5)], isDirty := false }, euStates := [(euId, { euPdu := { id := euId, euType := euType, tags := [{ key := .alias a1, value := some (.int (if b then 1 else 0)) }, { key := .alias a2, value := some (.int n) }, { key := .alias a3, value := some (.float q) }, { key := .alias a4, value := some (.str k4) }, { key := .alias a5, value := some (.bytes bs) }] }, isTraceOngoing := false, eventTags := [], openFragment := some { traceId := traceId, executionUnitId := euId, events := [{ sequenceNumber := 0, eventType := .createEu, status := .busy, causingEvents := [], tags := [] }, { sequenceNumber := 1, eventType := .finishEu, status := .idle, causingEvents := [], tags := [] }] }, hasEvent := true })], emitted := [PDU.broadcast [(a1, k1), (a2, k2), (a3, k3), (a4, k4), (a5, k5)], PDU.routed traceId [{ traceId := traceId, executionUnitId := euId, events := [{ sequenceNumber := 0, eventType := .createEu, status := .busy, causingEvents := [], tags := [] }, { sequenceNumber := 1, eventType := .finishEu, status := .idle, causingEvents := [], tags := [] }] }] [{ id := euId, euType := euType, tags := [{ key := .alias a1, value := some (.int (if b then 1 else 0)) }, { key := .alias a2, value := some (.int n) }, { key := .alias a3, value := some (.float q) }, { key := .alias a4, value := some (.str k4) }, { key := .alias a5, value := some (.bytes bs) }] }]] }) := by
    simp [BuilderState.finishTrace, StringTable.saveTo, alookup_cons, adset_cons]
  have e7 : BuilderState.finishEu { stringTable := { stringsByAlias := [(a1, k1), (a2, k2), (a3, k3), (a4, k4), (a5, k5)], aliasesByString := [(k1, a1), (k2, a2), (k3, a3), (k4, a4), (k5, a5)], isDirty := false }, euStates := [(euId, { euPdu := { id := euId, euType := euType, tags := [{ key := .alias a1, value := some (.int (if b then 1 else 0)) }, { key := .alias a2, value := some (.int n) }, { key := .alias a3, value := some (.float q) }, { key := .alias a4, value := some (.str k4) }, { key := .alias a5, value := some (.bytes bs) }] }, isTraceOngoing := false, eventTags := [], openFragment := some { traceId := traceId, executionUnitId := euId, events := [{ sequenceNumber := 0, eventType := .createEu, status := .busy, causingEvents := [], tags := [] }, { sequenceNumber := 1, eventType := .finishEu, status := .idle, causingEvents := [], tags := [] }] }, hasEvent := true })], emitted := [PDU.broadcast [(a1, k1), (a2, k2), (a3, k3), (a4, k4), (a5, k5)], PDU.routed traceId [{ traceId := traceId, executionUnitId := euId, events := [{ sequenceNumber := 0, eventType := .createEu, status := .busy, causingEvents := [], tags := [] }, { sequenceNumber := 1, eventType := .finishEu, status := .idle, causingEvents := [], tags := [] }] }] [{ id := euId, euType := euType, tags := [{ key := .alias a1, value := some (.int (if b then 1 else 0)) }, { key := .alias a2, value := some (.int n) }, { key := .alias a3, value := some (.float q) }, { key := .alias a4, value := some (.str k4) }, { key := .alias a5, value := some (.bytes bs) }] }]] } euId = (.ok (), { stringTable := { stringsByAlias := [(a1, k1), (a2, k2), (a3, k3), (a4, k4), (a5, k5)], aliasesByString := [(k1, a1), (k2, a2), (k3, a3), (k4, a4), (k5, a5)], isDirty := false }, euStates := [], emitted := [PDU.broadcast [(a1, k1), (a2, k2), (a3, k3), (a4, k4), (a5, k5)], PDU.routed traceId [{ traceId := traceId, executionUnitId := euId, events := [{ sequenceNumber := 0, eventType := .createEu, status := .busy, causingEvents := [], tags := [] }, { sequenceNumber := 1, eventType := .finishEu, status := .idle, causingEvents := [], tags := [] }] }] [{ id := euId, euType := euType, tags := [{ key := .alias a1, value := some (.int (if b then 1 else 0)) }, { key := .alias a2, value := some (.int n) }, { key := .alias a3, value := some (.float q) }, { key := .alias a4, value := some (.str k4) }, { key := .alias a5, value := some (.bytes bs) }] }]] }) := by
    simp [BuilderState.finishEu, alookup_cons, List.filter]
  simp [c1Scenario, ExecutionUnit.finish, e4, e5, e6, e7]

/-- Witness for the amended C1 at five concrete tags of the five
    scalar kinds. -/
theorem C1_witness :
    c1Run.emitted =
    [PDU.broadcast
       [(3876335077, "b"), (3960223172, "i"), (3809224601, "f"),
        (4127999362, "s"), (1412156564, "by")],
     PDU.routed (List.replicate 16 9)
       [{ traceId := List.replicate 16 9, executionUnitId := [1, 2, 3, 4, 5, 6, 7, 8], events := [{ sequenceNumber := 0, eventType := .createEu, status := .busy, causingEvents := [], tags := [] }, { sequenceNumber := 1, eventType := .finishEu, status := .idle, causingEvents := [], tags := [] }] }]
       [{ id := [1, 2, 3, 4, 5, 6, 7, 8], euType := 2, tags := [{ key := .alias 3876335077, value := some (.int 1) }, { key := .alias 3960223172, value := some (.int 42) }, { key := .alias 3809224601, value := some (.float (3 : ℚ)) }, { key := .alias 4127999362, value := some (.str "s") }, { key := .alias 1412156564, value := some (.bytes [1, 2]) }] }]] := by
  exact C1_create_finish_pdu_stream [1, 2, 3, 4, 5, 6, 7, 8]
    (List.replicate 16 9) 2 "b" "i" "f" "s" "by" true 42 (3 : ℚ) "hello"
    [1, 2] 3876335077 3960223172 3809224601 4127999362 1412156564
    (by decide) (by decide) (by decide) (by decide) (by decide)
    (by decide) (by decide) (by decide) (by decide) (by decide)
    (by decide) (by decide) (by decide) (by decide) (by decide)

/-! ## C9 support lemmas -/

theorem hexVal_nibbleChar : ∀ m, m < 16 → hexVal (nibbleChar m) = some m := by
  decide

theorem nibbleChar_ne_dash (n : Nat) : nibbleChar n ≠ '-' := by
  have h : n % 16 < 16 := Nat.mod_lt _ (by norm_num)
  have hall : ∀ m, m < 16 → nibbleChar m ≠ '-' := by decide
  have hm : nibbleChar n = nibbleChar (n % 16) := by
    have hmm : n % 16 % 16 = n % 16 := by omega
    unfold nibbleChar
    rw [hmm]
  rw [hm]
  exact hall _ h

theorem bytesToHex_no_dash (bs : List Nat) : '-' ∉ bytesToHex bs := by
  intro hmem
  rcases List.mem_flatMap.1 hmem with ⟨b, _, hb⟩
  simp only [List.mem_cons, List.not_mem_nil, or_false] at hb
  rcases hb with h | h
  · exact nibbleChar_ne_dash _ h.symm
  · exact nibbleChar_ne_dash _ h.symm

theorem hexToBytes_bytesToHex (bs : List Nat) (h : ∀ b ∈ bs, b < 256) :
    hexToBytes (bytesToHex bs) = some bs := by
  induction bs with
  | nil => rfl
  | cons b rest ih =>
      have hb : b < 256 := h b (List.mem_cons_self ..)
      have hmod : b % 256 = b := Nat.mod_eq_of_lt hb
      have hdivlt : (b % 256) / 16 < 16 := by omega
      have hmodlt : b % 16 < 16 := Nat.mod_lt _ (by norm_num)
      have hrest := ih (fun x hx => h x (List.mem_cons_of_mem _ hx))
      show hexToBytes
        (nibbleChar ((b % 256) / 16) :: nibbleChar (b % 16) :: bytesToHex rest)
        = some (b :: rest)
      unfold hexToBytes
      rw [hexVal_nibbleChar _ hdivlt, hexVal_nibbleChar _ hmodlt, hrest]
      simp only [Option.some.injEq, List.cons.injEq, and_true]
      omega

theorem splitOnDash_cons (c : Char) (rest : List Char) :
    splitOnDash (c :: rest) =
      if c = '-' then [] :: splitOnDash rest
      else
        match splitOnDash rest with
        | [] => [[c]]
        | x :: xs => (c :: x) :: xs := rfl

theorem splitOnDash_no_dash (a : List Char) (h : '-' ∉ a) :
    splitOnDash a = [a] := by
  induction a with
  | nil => rfl
  | cons c rest ih =>
      have hc : ¬ c = '-' := fun hc => h (hc ▸ List.mem_cons_self ..)
      have hr := ih (fun hm => h (List.mem_cons_of_mem _ hm))
      rw [splitOnDash_cons, if_neg hc, hr]

theorem splitOnDash_append (a r : List Char) (h : '-' ∉ a) :
    splitOnDash (a ++ '-' :: r) = a :: splitOnDash r := by
  induction a with
  | nil =>
      rw [List.nil_append, splitOnDash_cons, if_pos rfl]
  | cons c rest ih =>
      have hc : ¬ c = '-' := fun hc => h (hc ▸ List.mem_cons_self ..)
      have hr := ih (fun hm => h (List.mem_cons_of_mem _ hm))
      rw [List.cons_append, splitOnDash_cons, if_neg hc, hr]

theorem alookup_append_of_none {α β : Type} [DecidableEq α]
    {l : List (α × β)} (l' : List (α × β)) {k : α}
    (h : alookup l k = none) : alookup (l ++ l') k = alookup l' k := by
  induction l with
  | nil => rfl
  | cons p rest ih =>
      rw [alookup_cons] at h
      rw [List.cons_append, alookup_cons]
      by_cases hc : p.1 = k
      · simp [hc] at h
      · simp only [hc, if_false] at h ⊢
        exact ih h

theorem adset_of_not_mem {α β : Type} [DecidableEq α]
    {l : List (α × β)} {k : α} (v : β)
    (h : alookup l k = none) : adset l k v = l ++ [(k, v)] := by
  induction l with
  | nil => rfl
  | cons p rest ih =>
      rw [alookup_cons] at h
      by_cases hc : p.1 = k
      · simp [hc] at h
      · simp only [hc, if_false] at h
        rw [adset_cons, if_neg hc, ih h, List.cons_append]

theorem foldl_adset_fresh {α β : Type} [DecidableEq α]
    (items : List (α × β)) (L : List (α × β))
    (h : ∀ kv ∈ items, alookup L kv.1 = none)
    (hnd : (items.map Prod.fst).Nodup) :
    items.foldl (fun c kv => adset c kv.1 kv.2) L = L ++ items := by
  induction items generalizing L with
  | nil => simp
  | cons b rest ih =>
      have hb := h b (List.mem_cons_self ..)
      rw [List.foldl_cons, adset_of_not_mem _ hb]
      rw [List.map_cons, List.nodup_cons] at hnd
      rw [ih (L ++ [b]) ?_ hnd.2]
      · simp
      · intro kv hkv
        rw [alookup_append_of_none _ (h kv (List.mem_cons_of_mem _ hkv))]
        rw [alookup_cons]
        have : ¬ b.1 = kv.1 := by
          intro heq
          exact hnd.1 (heq ▸ List.mem_map_of_mem Prod.fst hkv)
        simp [this, alookup_nil]

theorem prefixBaggage_lower :
    prefixBaggage.map Char.toLower = prefixBaggage := by decide

theorem prefixBaggage_ne_spanId (k : List Char) :
    ¬ prefixBaggage ++ k = fieldNameSpanId := by
  intro h
  simp [prefixBaggage, fieldNameSpanId, prefixTracerState] at h

theorem prefixBaggage_ne_traceId (k : List Char) :
    ¬ prefixBaggage ++ k = fieldNameTraceId := by
  intro h
  simp [prefixBaggage, fieldNameTraceId, prefixTracerState] at h

theorem prefixBaggage_ne_sampled (k : List Char) :
    ¬ prefixBaggage ++ k = fieldNameSampled := by
  intro h
  simp [prefixBaggage, fieldNameSampled, prefixTracerState] at h

/-- Processing the baggage tail of a text carrier: each
    `ot-baggage-`-prefixed entry with an already-lowercase key is
    collected under the suffix of its key, the tracer-field counters
    untouched. -/
theorem textExtractLoop_baggage (baggage : List (List Char × List Char))
    (count : Nat) (traceId spanId : Option (List Nat))
    (bag : List (List Char × List Char))
    (hlower : ∀ kv ∈ baggage, kv.1.map Char.toLower = kv.1) :
    textExtractLoop (baggage.map (fun kv => (prefixBaggage ++ kv.1, kv.2)))
      count traceId spanId bag =
    .ok (count, traceId, spanId,
      baggage.foldl (fun b kv => adset b kv.1 kv.2) bag) := by
  induction baggage generalizing bag with
  | nil => rfl
  | cons kv rest ih =>
      have hk : kv.1.map Char.toLower = kv.1 :=
        hlower kv (List.mem_cons_self ..)
      have hklower : (prefixBaggage ++ kv.1).map Char.toLower =
          prefixBaggage ++ kv.1 := by
        rw [List.map_append, prefixBaggage_lower, hk]
      rw [List.map_cons]
      unfold textExtractLoop
      rw [hklower]
      rw [if_neg (prefixBaggage_ne_spanId kv.1),
        if_neg (prefixBaggage_ne_traceId kv.1),
        if_neg (prefixBaggage_ne_sampled kv.1)]
      have hpre : prefixBaggage.isPrefixOf (prefixBaggage ++ kv.1) = true := by
        simp [List.isPrefixOf_iff_prefix]
      rw [if_pos hpre]
      have hdrop : (prefixBaggage ++ kv.1).drop prefixBaggage.length = kv.1 :=
        List.drop_left _ _
      rw [hdrop]
      exact ih _ (fun x hx => hlower x (List.mem_cons_of_mem _ hx))

theorem fieldNameTraceId_lower :
    fieldNameTraceId.map Char.toLower = fieldNameTraceId := by decide

theorem fieldNameSpanId_lower :
    fieldNameSpanId.map Char.toLower = fieldNameSpanId := by decide

theorem fieldNameSampled_lower :
    fieldNameSampled.map Char.toLower = fieldNameSampled := by decide

theorem traceId_ne_spanId : ¬ fieldNameTraceId = fieldNameSpanId := by decide

theorem sampled_ne_spanId : ¬ fieldNameSampled = fieldNameSpanId := by decide

theorem sampled_ne_traceId : ¬ fieldNameSampled = fieldNameTraceId := by
  decide

/-- Loop step for a `trace_id` entry carrying a well-formed UUID. -/
theorem textExtractLoop_traceId_step (rest : List (List Char × List Char))
    (count : Nat) (traceId spanId : Option (List Nat))
    (bag : List (List Char × List Char)) (v : List Char) (bs : List Nat)
    (hv : hexToBytes v = some bs) (hlen : bs.length = 16)
    (hok : uuidVariantVersionOk bs = true) :
    textExtractLoop ((fieldNameTraceId, v) :: rest) count traceId spanId bag =
      textExtractLoop rest (count + 1) (some bs) spanId bag := by
  simp only [textExtractLoop, fieldNameTraceId_lower, traceId_ne_spanId,
    if_false, eq_self_iff_true, if_true, hv, hlen, hok]

/-- Loop step for a `spanid` entry. -/
theorem textExtractLoop_spanId_step (rest : List (List Char × List Char))
    (count : Nat) (traceId spanId : Option (List Nat))
    (bag : List (List Char × List Char)) (v : List Char) (bs : List Nat)
    (hv : hexToBytes v = some bs) :
    textExtractLoop ((fieldNameSpanId, v) :: rest) count traceId spanId bag =
      textExtractLoop rest (count + 1) traceId (some bs) bag := by
  simp only [textExtractLoop, fieldNameSpanId_lower, eq_self_iff_true,
    if_true, hv]

/-- Loop step for a `sampled` entry with value `"true"`. -/
theorem textExtractLoop_sampled_step (rest : List (List Char × List Char))
    (count : Nat) (traceId spanId : Option (List Nat))
    (bag : List (List Char × List Char)) :
    textExtractLoop ((fieldNameSampled, trueChars) :: rest) count traceId
        spanId bag =
      textExtractLoop rest (count + 1) traceId spanId bag := by
  simp only [textExtractLoop, fieldNameSampled_lower, sampled_ne_spanId,
    sampled_ne_traceId, if_false, eq_self_iff_true, if_true, true_or]

/-- C9.  For a well-formed span context (16-byte RFC 4122 version-1
    trace id, 8-byte event id, lowercase distinct baggage keys),
    injecting with each propagator into a fresh carrier and extracting
    from it restores the trace id and event id losslessly in all three
    formats; the baggage comes back through the textual key/value form
    and is dropped (returned empty) by the binary and W3C forms. -/
theorem C9_propagator_roundtrips (tid eid : List Nat)
    (baggage : List (List Char × List Char)) (unitId : Option (List Nat))
    (h16 : tid.length = 16) (h8 : eid.length = 8)
    (htb : ∀ b ∈ tid, b < 256) (heb : ∀ b ∈ eid, b < 256)
    (huuid : uuidVariantVersionOk tid = true)
    (hlower : ∀ kv ∈ baggage, kv.1.map Char.toLower = kv.1)
    (hnodup : (baggage.map Prod.fst).Nodup) :
    binExtract (binInject ⟨⟨tid, eid, unitId⟩, baggage⟩ []) =
      .ok ⟨⟨tid, eid, none⟩, []⟩ ∧
    textExtract (textInject ⟨⟨tid, eid, unitId⟩, baggage⟩ []) =
      .ok (some tid, some eid, baggage) ∧
    w3cExtract (w3cInject ⟨⟨tid, eid, unitId⟩, baggage⟩ []) =
      .ok ⟨⟨tid, eid, none⟩, []⟩ := by
  have hhexT := hexToBytes_bytesToHex tid htb
  have hhexE := hexToBytes_bytesToHex eid heb
  refine ⟨?_, ?_, ?_⟩
  · -- binary
    have hinj : binInject ⟨⟨tid, eid, unitId⟩, baggage⟩ [] =
        0 :: (tid ++ (eid ++ [1])) := by
      simp [binInject]
    have hlen : (0 :: (tid ++ (eid ++ [1]))).length = 26 := by
      simp [h16, h8]
    have htake : (tid ++ (eid ++ [1])).take 16 = tid := List.take_left' h16
    have hdrop : (0 :: (tid ++ (eid ++ [1]))).drop 17 = eid ++ [1] := by
      show (tid ++ (eid ++ [1])).drop 16 = eid ++ [1]
      exact List.drop_left' h16
    have htake8 : (eid ++ [1]).take 8 = eid := List.take_left' h8
    rw [hinj]
    unfold binExtract
    rw [hlen]
    simp only [List.drop_succ_cons, List.drop_zero, htake, hdrop, htake8,
      List.headD_cons, h16, huuid]
    norm_num
  · -- text
    have hfresh : ∀ kv ∈ baggage.map
        (fun kv : List Char × List Char => (prefixBaggage ++ kv.1, kv.2)),
        alookup [(fieldNameTraceId, bytesToHex tid),
                 (fieldNameSpanId, bytesToHex eid),
                 (fieldNameSampled, trueChars)] kv.1 = none := by
      intro kv hkv
      rcases List.mem_map.1 hkv with ⟨x, _, rfl⟩
      have h1 : ¬ (fieldNameTraceId = prefixBaggage ++ x.1) :=
        fun h => prefixBaggage_ne_traceId x.1 h.symm
      have h2 : ¬ (fieldNameSpanId = prefixBaggage ++ x.1) :=
        fun h => prefixBaggage_ne_spanId x.1 h.symm
      have h3 : ¬ (fieldNameSampled = prefixBaggage ++ x.1) :=
        fun h => prefixBaggage_ne_sampled x.1 h.symm
      simp [alookup_cons, alookup_nil, h1, h2, h3]
    have hinjective : Function.Injective
        (fun a : List Char => prefixBaggage ++ a) := by
      intro a b h
      simpa [List.drop_left] using congrArg (List.drop prefixBaggage.length) h
    have hnd : ((baggage.map
        (fun kv : List Char × List Char => (prefixBaggage ++ kv.1, kv.2))).map
          Prod.fst).Nodup := by
      rw [List.map_map]
      have hcomp : (Prod.fst ∘
          fun kv : List Char × List Char => (prefixBaggage ++ kv.1, kv.2)) =
          ((fun a => prefixBaggage ++ a) ∘ Prod.fst) := rfl
      rw [hcomp, ← List.map_map]
      exact hnodup.map hinjective
    have hinj : textInject ⟨⟨tid, eid, unitId⟩, baggage⟩ [] =
        (fieldNameTraceId, bytesToHex tid) ::
          (fieldNameSpanId, bytesToHex eid) ::
            (fieldNameSampled, trueChars) ::
              baggage.map (fun kv => (prefixBaggage ++ kv.1, kv.2)) := by
      simp only [textInject]
      rw [adset_nil,
        adset_cons, if_neg traceId_ne_spanId, adset_nil,
        adset_cons, if_neg (fun h => sampled_ne_traceId h.symm),
        adset_cons, if_neg (fun h => sampled_ne_spanId h.symm), adset_nil]
      have hfold := foldl_adset_fresh
        (baggage.map
          (fun kv : List Char × List Char => (prefixBaggage ++ kv.1, kv.2)))
        [(fieldNameTraceId, bytesToHex tid),
         (fieldNameSpanId, bytesToHex eid),
         (fieldNameSampled, trueChars)] hfresh hnd
      rw [List.foldl_map] at hfold
      exact hfold
    have hbagfold : baggage.foldl
        (fun b (kv : List Char × List Char) => adset b kv.1 kv.2) [] =
        baggage := by
      have h := foldl_adset_fresh baggage [] (fun kv _ => rfl) hnodup
      simpa using h
    rw [hinj]
    unfold textExtract
    rw [textExtractLoop_traceId_step _ _ _ _ _ _ _ hhexT h16 huuid,
      textExtractLoop_spanId_step _ _ _ _ _ _ _ hhexE,
      textExtractLoop_sampled_step,
      textExtractLoop_baggage _ _ _ _ _ hlower, hbagfold]
    norm_num
  · -- w3c
    have hsplit : splitOnDash (['0', '0'] ++ '-' :: (bytesToHex tid ++
        '-' :: (bytesToHex eid ++ '-' :: ['0', '1']))) =
        [['0', '0'], bytesToHex tid, bytesToHex eid, ['0', '1']] := by
      rw [splitOnDash_append _ _ (by decide),
        splitOnDash_append _ _ (bytesToHex_no_dash tid),
        splitOnDash_append _ _ (bytesToHex_no_dash eid),
        splitOnDash_no_dash _ (by decide)]
    have h00 : hexToBytes ['0', '0'] = some [0] := by decide
    simp only [w3cInject, w3cExtract]
    rw [adset_nil, alookup_cons, if_pos rfl]
    simp only [hsplit, hhexT, hhexE, h16, huuid, h00]
    norm_num

/-- Witness for C9 on a concrete version-1 RFC 4122 trace id, 8-byte
    event id and one baggage item. -/
theorem C9_witness :
    binExtract (binInject
      ⟨⟨[17, 17, 17, 17, 17, 17, 26, 17, 128, 17, 17, 17, 17, 17, 17, 17],
        [1, 2, 3, 4, 5, 6, 7, 8], some [9]⟩,
       [(['f', 'o', 'o'], ['b', 'a', 'r'])]⟩ []) =
      .ok ⟨⟨[17, 17, 17, 17, 17, 17, 26, 17, 128, 17, 17, 17, 17, 17, 17, 17],
            [1, 2, 3, 4, 5, 6, 7, 8], none⟩, []⟩ ∧
    textExtract (textInject
      ⟨⟨[17, 17, 17, 17, 17, 17, 26, 17, 128, 17, 17, 17, 17, 17, 17, 17],
        [1, 2, 3, 4, 5, 6, 7, 8], some [9]⟩,
       [(['f', 'o', 'o'], ['b', 'a', 'r'])]⟩ []) =
      .ok (some [17, 17, 17, 17, 17, 17, 26, 17, 128, 17, 17, 17, 17, 17, 17, 17],
           some [1, 2, 3, 4, 5, 6, 7, 8],
           [(['f', 'o', 'o'], ['b', 'a', 'r'])]) ∧
    w3cExtract (w3cInject
      ⟨⟨[17, 17, 17, 17, 17, 17, 26, 17, 128, 17, 17, 17, 17, 17, 17, 17],
        [1, 2, 3, 4, 5, 6, 7, 8], some [9]⟩,
       [(['f', 'o', 'o'], ['b', 'a', 'r'])]⟩ []) =
      .ok ⟨⟨[17, 17, 17, 17, 17, 17, 26, 17, 128, 17, 17, 17, 17, 17, 17, 17],
            [1, 2, 3, 4, 5, 6, 7, 8], none⟩, []⟩ := by
  exact C9_propagator_roundtrips
    [17, 17, 17, 17, 17, 17, 26, 17, 128, 17, 17, 17, 17, 17, 17, 17]
    [1, 2, 3, 4, 5, 6, 7, 8] [(['f', 'o', 'o'], ['b', 'a', 'r'])] (some [9])
    (by decide) (by decide) (by decide) (by decide) (by decide) (by decide)
    (by decide)

end Tracent
